import Mathlib

/-!
# transfer-system: the atomic transfer engine

A shallow embedding of `internal/domain`, `internal/service` and
`internal/repository` of tareqpi/transfer-system, and of the part of
`internal/api` that the transfer path goes through.

* `decimal.Decimal` (shopspring, arbitrary precision, exact `Add`/`Sub`/`Cmp`)
  is a rational number.
* `int64` account ids are integers; the code only compares them.
* The relational store is a pair of tables (`accounts.accounts`,
  `accounts.transactions`) held as lists of rows.  Every SQL statement of the
  repository is given its row-level meaning on these lists.
* One call of `pgxpool`/`pgx` may fail with a driver error at any statement;
  which statement fails, and the id the store hands out for an inserted
  record, are the `Store` argument of a call.
* A Go `error` is a value of `Error`; `nil` is `none`.
-/

namespace TransferSystem

/-- The type `decimal.Decimal`. -/
abbrev Decimal := ℚ

/-! ## internal/domain -/

namespace domain

/-- The struct `domain.Account`. -/
structure Account where
  ID : Int
  Balance : Decimal
  deriving DecidableEq, Repr

/-- The struct `domain.Transaction`. -/
structure Transaction where
  ID : Int
  SourceAccountID : Int
  DestinationAccountID : Int
  Amount : Decimal
  deriving DecidableEq, Repr

end domain

open domain

/-! ## Go errors -/

/-- Go `error` values that occur on the transfer and account paths.  The first
four are the sentinels of package `service`, the fifth the sentinel of package
`repository`, `pgxErrNoRows` is `pgx.ErrNoRows`; `new msg` is a value made by
`errors.New(msg)` at a return site, `driver msg` an error produced by the
database driver, `wrap msg e` an error whose `Unwrap() error` gives `e`, and
`join l r` an error whose `Unwrap() []error` gives `l` and `r` (as made by
`errors.Join`). -/
inductive Error where
  | ErrSameSourceAndDestination
  | ErrNonPositiveAmount
  | ErrInvalidAccountIDs
  | ErrInsufficientBalance
  | repositoryErrInsufficientBalance
  | pgxErrNoRows
  | new (msg : String)
  | driver (msg : String)
  | wrap (msg : String) (inner : Error)
  | join (left right : Error)
  deriving DecidableEq, Repr

/-- The function `errors.Is(err, target)` for a sentinel `target`: `err` is
`target`, or the error its `Unwrap() error` gives is, or one of the errors its
`Unwrap() []error` gives is, in depth-first order. -/
def errorsIs : Error → Error → Bool
  | .wrap msg inner, target =>
      decide (Error.wrap msg inner = target) || errorsIs inner target
  | .join left right, target =>
      decide (Error.join left right = target) || errorsIs left target ||
        errorsIs right target
  | err, target => decide (err = target)

/-! ## The store -/

/-- The durable state: the rows of `accounts.accounts` and of
`accounts.transactions`, the latter in insertion order. -/
structure Ledger where
  accounts : List Account
  transactions : List Transaction
  deriving DecidableEq, Repr

/-- The statements `PGRepository` sends to the store. -/
inductive Step where
  | begin
  | selectSource
  | selectDestination
  | debit
  | credit
  | insert
  | commit
  | insertAccount
  deriving DecidableEq, Repr

/-- What the store does during one call beyond the row-level meaning of the
statements: `fault op` is the driver error with which statement `op` fails
(`none`: it does not fail), `newID` the id the store assigns to a transfer
record inserted during the call. -/
structure Store where
  fault : Step → Option String
  newID : Int

/-- A store on which no statement fails. -/
def Store.healthy (newID : Int) : Store := ⟨fun _ => none, newID⟩

/-- A store on which exactly statement `op` fails, with driver error `msg`. -/
def Store.failingAt (op : Step) (msg : String) (newID : Int) : Store :=
  ⟨fun o => if o = op then some msg else none, newID⟩

/-- A statement as seen by the store, in the order issued. -/
inductive Stmt where
  | begin
  | selectForUpdate (id : Int)
  | update (id : Int) (delta : Decimal)
  | insertTransaction (source destination : Int) (amount : Decimal)
  | commit
  | rollback
  deriving DecidableEq, Repr

/-- Modelled from the spec: the primary key of `accounts.accounts` (declared by
the migrations, which are not among the sources; §3 "id: positive integer,
unique"): no two rows share an id. -/
def Ledger.WF (s : Ledger) : Prop := (s.accounts.map (·.ID)).Nodup

instance (s : Ledger) : Decidable s.WF := by unfold Ledger.WF; infer_instance

/-- The row of `accounts.accounts` with the given id, if any. -/
def Ledger.find (s : Ledger) (id : Int) : Option Account :=
  s.accounts.find? (fun a => a.ID == id)

/-- The balance of the account with the given id, if the account exists. -/
def Ledger.balance (s : Ledger) (id : Int) : Option Decimal :=
  (s.find id).map (·.Balance)

/-- Sum of all account balances. -/
def Ledger.total (s : Ledger) : Decimal := (s.accounts.map (·.Balance)).sum

/-- Every account balance is non-negative. -/
def Ledger.NonNeg (s : Ledger) : Prop := ∀ a ∈ s.accounts, 0 ≤ a.Balance

/-- The statement `UPDATE accounts.accounts SET balance = balance + delta WHERE id = id`. -/
def updateBalance (rows : List Account) (id : Int) (delta : Decimal) : List Account :=
  rows.map (fun a => if a.ID = id then { a with Balance := a.Balance + delta } else a)

/-- The call `tx.QueryRow(SELECT ... WHERE id = $1 FOR UPDATE, id).Scan(...)`:
the driver error if the statement fails, `pgx.ErrNoRows` if no row has the id,
the row otherwise. -/
def queryRowForUpdate (db : Store) (op : Step) (rows : List Account) (id : Int) :
    Except Error Account :=
  match db.fault op with
  | some msg => .error (.driver msg)
  | none =>
    match rows.find? (fun a => a.ID == id) with
    | none => .error .pgxErrNoRows
    | some a => .ok a

/-! ## internal/repository -/

namespace repository

/-- The interface `repository.Repository`, over a repository state `σ`
(`GetAccount` is not on the transfer path and is left out). -/
structure Repository (σ : Type) where
  CreateAccount : Account → σ → (Option Account × Option Error) × σ
  TransferMoney : Transaction → σ → (Option Transaction × Option Error) × σ

/-- What one call of `PGRepository.TransferMoney` leaves behind: the returned
pair, the committed ledger, and the statements issued. -/
structure Outcome where
  result : Option Transaction × Option Error
  committed : Ledger
  trace : List Stmt

/-- The two `SELECT ... FOR UPDATE` of `PGRepository.TransferMoney`
(repository.go:132-158): the source balance read, or the error returned,
with the statements issued. -/
def lockRows (db : Store) (t : Transaction) (rows : List Account) :
    Except Error Decimal × List Stmt :=
  if t.SourceAccountID ≤ t.DestinationAccountID then
    match queryRowForUpdate db .selectSource rows t.SourceAccountID with
    | .error err =>
      (.error (if errorsIs err .pgxErrNoRows then .new "source account not found" else err),
        [.selectForUpdate t.SourceAccountID])
    | .ok src =>
      match queryRowForUpdate db .selectDestination rows t.DestinationAccountID with
      | .error err =>
        (.error (if errorsIs err .pgxErrNoRows then .new "destination account not found" else err),
          [.selectForUpdate t.SourceAccountID, .selectForUpdate t.DestinationAccountID])
      | .ok _ =>
        (.ok src.Balance,
          [.selectForUpdate t.SourceAccountID, .selectForUpdate t.DestinationAccountID])
  else
    match queryRowForUpdate db .selectDestination rows t.DestinationAccountID with
    | .error err =>
      (.error (if errorsIs err .pgxErrNoRows then .new "destination account not found" else err),
        [.selectForUpdate t.DestinationAccountID])
    | .ok _ =>
      match queryRowForUpdate db .selectSource rows t.SourceAccountID with
      | .error err =>
        (.error (if errorsIs err .pgxErrNoRows then .new "source account not found" else err),
          [.selectForUpdate t.DestinationAccountID, .selectForUpdate t.SourceAccountID])
      | .ok src =>
        (.ok src.Balance,
          [.selectForUpdate t.DestinationAccountID, .selectForUpdate t.SourceAccountID])

/-- The body of `PGRepository.TransferMoney` between `Begin` and the return
(repository.go:129-185), run on the transaction's view `s` of the ledger: the
returned record together with the ledger the commit makes durable, or the
error returned; and the statements issued. -/
def transferTx (db : Store) (t : Transaction) (s : Ledger) :
    Except Error (Transaction × Ledger) × List Stmt :=
  match lockRows db t s.accounts with
  | (.error err, tr) => (.error err, tr)
  | (.ok sourceBalance, tr) =>
    if sourceBalance < t.Amount then (.error .repositoryErrInsufficientBalance, tr)
    else
      let tr := tr ++ [.update t.SourceAccountID (-t.Amount)]
      match db.fault .debit with
      | some msg => (.error (.driver msg), tr)
      | none =>
        let rows := updateBalance s.accounts t.SourceAccountID (-t.Amount)
        let tr := tr ++ [.update t.DestinationAccountID t.Amount]
        match db.fault .credit with
        | some msg => (.error (.driver msg), tr)
        | none =>
          let rows := updateBalance rows t.DestinationAccountID t.Amount
          let tr := tr ++
            [.insertTransaction t.SourceAccountID t.DestinationAccountID t.Amount]
          match db.fault .insert with
          | some msg => (.error (.driver msg), tr)
          | none =>
            let id := db.newID
            let log := s.transactions ++
              [{ ID := id, SourceAccountID := t.SourceAccountID,
                 DestinationAccountID := t.DestinationAccountID, Amount := t.Amount }]
            let tr := tr ++ [.commit]
            match db.fault .commit with
            | some msg => (.error (.driver msg), tr)
            | none =>
              (.ok ({ ID := id, SourceAccountID := t.SourceAccountID,
                      DestinationAccountID := t.DestinationAccountID, Amount := t.Amount },
                    { accounts := rows, transactions := log }), tr)

/-- The method `PGRepository.TransferMoney` (repository.go:122-186).  `Begin`
opens the unit of work; the deferred `Rollback` discards its writes on every
return path that did not commit.  It sends a ROLLBACK unless `Commit` was
called before: `Commit` closes the `Tx` also when it fails, and `Rollback` on
a closed `Tx` sends nothing. -/
def TransferMoney (db : Store) (t : Transaction) (s : Ledger) : Outcome :=
  match db.fault .begin with
  | some msg => ⟨(none, some (.driver msg)), s, [.begin]⟩
  | none =>
    match transferTx db t s with
    | (.error err, tr) =>
      ⟨(none, some err), s,
        .begin :: tr ++ (if tr.getLast? = some .commit then [] else [.rollback])⟩
    | (.ok (record, s'), tr) => ⟨(some record, none), s', .begin :: tr⟩

/-- Modelled from the spec: the primary key of `accounts.accounts` (declared by
the migrations, which are not among the sources; §3 "id: positive integer,
unique", §4.3 `AlreadyExists`): an INSERT of an id that a row already has is
refused. -/
def primaryKeyTaken (rows : List Account) (id : Int) : Bool :=
  rows.any (fun a => a.ID == id)

/-- The method `PGRepository.CreateAccount` (repository.go:86-104): one
`INSERT ... RETURNING id, balance` on the pool, committed on its own.  It
returns the driver error when the statement fails, which it does on a store
fault and on a key already taken; otherwise the row is stored as given and
returned. -/
def CreateAccount (db : Store) (account : Account) (s : Ledger) :
    (Option Account × Option Error) × Ledger :=
  match db.fault .insertAccount with
  | some msg => ((none, some (.driver msg)), s)
  | none =>
    if primaryKeyTaken s.accounts account.ID then
      ((none, some (.driver "duplicate key value violates unique constraint")), s)
    else
      ((some { ID := account.ID, Balance := account.Balance }, none),
        { s with accounts := s.accounts ++ [{ ID := account.ID, Balance := account.Balance }] })

/-- The type `PGRepository` as a `Repository` on the ledger, for one call
answered by the store as `db` says. -/
def PGRepository (db : Store) : Repository Ledger where
  CreateAccount account s := CreateAccount db account s
  TransferMoney t s := ((TransferMoney db t s).result, (TransferMoney db t s).committed)

end repository

/-! ## internal/service -/

namespace service

open repository (Repository)

/-- The method `DefaultService.TransferMoney` (service.go:49-68) over a
repository with state `σ`: the returned error and the repository state after
the call. -/
def TransferMoney {σ : Type} (repo : Repository σ) (transaction : Transaction) (st : σ) :
    Option Error × σ :=
  if transaction.SourceAccountID = transaction.DestinationAccountID then
    (some .ErrSameSourceAndDestination, st)
  else if transaction.Amount ≤ 0 then
    (some .ErrNonPositiveAmount, st)
  else if transaction.SourceAccountID ≤ 0 ∨ transaction.DestinationAccountID ≤ 0 then
    (some .ErrInvalidAccountIDs, st)
  else
    match repo.TransferMoney transaction st with
    | ((_, some err), st') =>
      if errorsIs err .repositoryErrInsufficientBalance then
        (some .ErrInsufficientBalance, st')
      else (some err, st')
    | ((_, none), st') => (none, st')

/-- The method `DefaultService.CreateAccount` (service.go:33-39). -/
def CreateAccount {σ : Type} (repo : Repository σ) (newAccount : Account) (st : σ) :
    (Option Account × Option Error) × σ :=
  match repo.CreateAccount newAccount st with
  | ((_, some err), st') => ((none, some err), st')
  | ((account, none), st') => ((account, none), st')

/-- The interface `service.Service` over a state `σ` (`GetAccount` left out,
as in `Repository`). -/
structure Service (σ : Type) where
  CreateAccount : Account → σ → (Option Account × Option Error) × σ
  TransferMoney : Transaction → σ → Option Error × σ

/-- The constructor `NewService`: the `DefaultService` on a repository. -/
def NewService {σ : Type} (dataRepository : Repository σ) : Service σ where
  CreateAccount := CreateAccount dataRepository
  TransferMoney := TransferMoney dataRepository

end service

/-! ## internal/api -/

/-- The method `Error()` of an error value: its text. -/
def Error.text : Error → String
  | .ErrSameSourceAndDestination => "source and destination account IDs cannot be the same"
  | .ErrNonPositiveAmount => "amount should be greater than zero"
  | .ErrInvalidAccountIDs => "invalid account IDs"
  | .ErrInsufficientBalance => "insufficient balance"
  | .repositoryErrInsufficientBalance => "insufficient balance"
  | .pgxErrNoRows => "no rows in result set"
  | .new msg => msg
  | .driver msg => msg
  | .wrap msg _ => msg
  | .join left right => left.text ++ "\n" ++ right.text

namespace api

open service (Service)

/-- The struct `CreateAccountRequest`. -/
structure CreateAccountRequest where
  AccountID : Int
  InitialBalance : Decimal
  deriving DecidableEq, Repr

/-- The struct `TransferMoneyRequest`. -/
structure TransferMoneyRequest where
  SourceAccountID : Int
  DestinationAccountID : Int
  Amount : Decimal
  deriving DecidableEq, Repr

/-- The struct `ErrorObject`. -/
structure ErrorObject where
  Code : String
  Message : String
  deriving DecidableEq, Repr

/-- The struct `ErrorResponse`. -/
structure ErrorResponse where
  RequestID : String
  Error : ErrorObject
  deriving DecidableEq, Repr

/-- What a handler reads of its `gin.Context` besides the body:
`c.GetString("request_id")` and `c.GetHeader("X-Request-ID")`, each `""` when
absent. -/
structure Context where
  requestID : String
  headerRequestID : String
  deriving DecidableEq, Repr

/-- What a handler writes: the status code and, for an error, the JSON body. -/
structure Response where
  status : Nat
  body : Option ErrorResponse
  deriving DecidableEq, Repr

/-- The function `WriteError` (errors.go:19-29). -/
def WriteError (c : Context) (status : Nat) (code message : String) : Response :=
  let requestID := if c.requestID = "" then c.headerRequestID else c.requestID
  { status := status,
    body := some { RequestID := requestID, Error := { Code := code, Message := message } } }

/-- The function `BadRequest`. -/
def BadRequest (c : Context) (code message : String) : Response :=
  WriteError c 400 code message

/-- The function `NotFound`. -/
def NotFound (c : Context) (code message : String) : Response :=
  WriteError c 404 code message

/-- The function `Conflict`. -/
def Conflict (c : Context) (code message : String) : Response :=
  WriteError c 409 code message

/-- The function `Internal`. -/
def Internal (c : Context) (message : String) : Response :=
  WriteError c 500 "internal_error" message

/-- The method `Handler.CreateAccount` (handler.go:39-56).  `bound` is what
`c.ShouldBindJSON(&request)` gave: the decoded request, or the text of its
error. -/
def CreateAccount {σ : Type} (svc : Service σ) (c : Context)
    (bound : Except String CreateAccountRequest) (st : σ) : Response × σ :=
  match bound with
  | .error msg => (BadRequest c "invalid_request" msg, st)
  | .ok request =>
    match svc.CreateAccount { ID := request.AccountID, Balance := request.InitialBalance } st with
    | ((_, some _), st') => (Internal c "Internal Server Error", st')
    | ((_, none), st') => ({ status := 201, body := none }, st')

/-- The method `Handler.TransferMoney` (handler.go:73-104), with `bound` as in
`CreateAccount`. -/
def TransferMoney {σ : Type} (svc : Service σ) (c : Context)
    (bound : Except String TransferMoneyRequest) (st : σ) : Response × σ :=
  match bound with
  | .error msg => (BadRequest c "invalid_request" msg, st)
  | .ok request =>
    match svc.TransferMoney
        { ID := 0, SourceAccountID := request.SourceAccountID,
          DestinationAccountID := request.DestinationAccountID, Amount := request.Amount } st with
    | (some err, st') =>
      if errorsIs err .ErrSameSourceAndDestination then
        (BadRequest c "same_account" err.text, st')
      else if errorsIs err .ErrNonPositiveAmount then
        (BadRequest c "invalid_amount" err.text, st')
      else if errorsIs err .ErrInvalidAccountIDs then
        (BadRequest c "invalid_account_ids" err.text, st')
      else if errorsIs err .ErrInsufficientBalance then
        (Conflict c "insufficient_balance" err.text, st')
      else
        (Internal c "Internal Server Error", st')
    | (none, st') => ({ status := 200, body := none }, st')

/-- The middleware `RequestID` (middleware.go:15-26) in front of the rest of
the chain `next`.  `header` is the request header `X-Request-ID` (`""` when
absent) and `generated` the value `uuid.NewString()` gives.  The identifier is
written to the request header, to the response header `X-Request-ID` and
under the key `"request_id"` before `next` runs; the result is the response
header together with what `next` wrote. -/
def RequestID {σ : Type} (generated header : String)
    (next : Context → σ → Response × σ) (st : σ) : (String × Response) × σ :=
  let requestID := if header = "" then generated else header
  let r := next { requestID := requestID, headerRequestID := requestID } st
  ((requestID, r.1), r.2)

end api

/-! ## The repository double of service_test.go -/

namespace mock

open repository (Repository)

/-- The struct `mockRepository` of service_test.go, over the state `σ` its
closures capture. -/
structure State (σ : Type) where
  createAccountCalls : Nat
  transferMoneyCalls : Nat
  lastTransferTx : Transaction
  captured : σ

/-- The methods of `mockRepository` (service_test.go:25-48): each counts its
call, `TransferMoney` records its argument, and both run the configured
closure, if any. -/
def mockRepository {σ : Type}
    (createAccountFn : Option (Account → σ → (Option Account × Option Error) × σ))
    (transferMoneyFn : Option (Transaction → σ → (Option Transaction × Option Error) × σ)) :
    Repository (State σ) where
  CreateAccount account m :=
    let m := { m with createAccountCalls := m.createAccountCalls + 1 }
    match createAccountFn with
    | some fn => let r := fn account m.captured; (r.1, { m with captured := r.2 })
    | none => ((none, none), m)
  TransferMoney tx m :=
    let m := { m with transferMoneyCalls := m.transferMoneyCalls + 1, lastTransferTx := tx }
    match transferMoneyFn with
    | some fn => let r := fn tx m.captured; (r.1, { m with captured := r.2 })
    | none => ((some tx, none), m)

end mock

/-! ## Properties -/

open repository (Repository)

/-- A request passes the three validation rules of §4.1. -/
def Valid (t : Transaction) : Prop :=
  t.SourceAccountID ≠ t.DestinationAccountID ∧ 0 < t.Amount ∧
    0 < t.SourceAccountID ∧ 0 < t.DestinationAccountID

instance (t : Transaction) : Decidable (Valid t) := by unfold Valid; infer_instance

/-- The ledger after a sequence of calls of `repository.TransferMoney`, one
after another, each answered by its own store behaviour. -/
def runRepository : List (Store × Transaction) → Ledger → Ledger
  | [], s => s
  | (db, t) :: rest, s => runRepository rest (repository.TransferMoney db t s).committed

/-- The ledger after a sequence of calls of `service.TransferMoney` on the
`PGRepository`, one after another. -/
def runService : List (Store × Transaction) → Ledger → Ledger
  | [], s => s
  | (db, t) :: rest, s =>
    runService rest (service.TransferMoney (repository.PGRepository db) t s).2

/-! ## Row locks of concurrent units of work

`SELECT ... FOR UPDATE` takes an exclusive lock on the selected row; the lock
is held until the unit of work commits or rolls back; a unit of work that asks
for a row another one holds waits.  The rows a call asks for, and their order,
are read off the statements `repository.TransferMoney` issues. -/

namespace locking

/-- The ids of the `SELECT ... FOR UPDATE` statements of a trace, in order. -/
def rowLocks : List Stmt → List Int
  | [] => []
  | .selectForUpdate id :: rest => id :: rowLocks rest
  | _ :: rest => rowLocks rest

/-- A unit of work at the lock manager: the rows it has still to lock, in
order, the rows it holds, and whether it has ended (committed or rolled back,
its locks released). -/
structure Worker where
  todo : List Int
  held : List Int
  done : Bool
  deriving DecidableEq, Repr

/-- A unit of work about to issue the statements of `tr`. -/
def Worker.start (tr : List Stmt) : Worker := ⟨rowLocks tr, [], false⟩

/-- One move of a unit of work while another holds the rows `othersHeld`: it
locks its next row if that row is free and waits (`none`) if it is not; with
no row left to lock it runs to its end and releases what it holds; once ended
it moves no more. -/
def Worker.move (w : Worker) (othersHeld : List Int) : Option Worker :=
  if w.done then none
  else
    match w.todo with
    | [] => some ⟨[], [], true⟩
    | r :: rest => if r ∈ othersHeld then none else some ⟨rest, r :: w.held, false⟩

/-- The states two concurrent units of work can move to in one move of either. -/
def moves (p : Worker × Worker) : List (Worker × Worker) :=
  (match p.1.move p.2.held with
    | some w => [(w, p.2)]
    | none => []) ++
  (match p.2.move p.1.held with
    | some w => [(p.1, w)]
    | none => [])

/-- The state `p` is reached from `init` by `n` moves, in any interleaving. -/
inductive Reach (init : Worker × Worker) : Nat → Worker × Worker → Prop where
  | start : Reach init 0 init
  | move {n : Nat} {p q : Worker × Worker} : Reach init n p → q ∈ moves p → Reach init (n + 1) q

/-- The moves a unit of work still has to make. -/
def Worker.remaining (w : Worker) : Nat := if w.done then 0 else w.todo.length + 1

/-- The states of a unit of work that locks a prefix of `lo`, `hi` in this order. -/
def phases (lo hi : Int) : List Worker :=
  [⟨[lo, hi], [], false⟩, ⟨[hi], [lo], false⟩, ⟨[], [hi, lo], false⟩,
   ⟨[lo], [], false⟩, ⟨[], [lo], false⟩, ⟨[], [], false⟩, ⟨[], [], true⟩]

end locking

/-! ### Rows and the UPDATE statement -/

theorem find_none_iff {rows : List Account} {id : Int} :
    rows.find? (fun a => a.ID == id) = none ↔ id ∉ rows.map (·.ID) := by
  simp only [List.find?_eq_none, List.mem_map, not_exists, not_and]
  constructor
  · intro h a ha hid
    have := h a ha
    simp [hid] at this
  · intro h a ha
    have := h a ha
    simpa using this

theorem updateBalance_cons (r : Account) (rs : List Account) (id : Int) (d : Decimal) :
    updateBalance (r :: rs) id d =
      (if r.ID = id then { r with Balance := r.Balance + d } else r) ::
        updateBalance rs id d := rfl

theorem updateBalance_ids (rows : List Account) (id : Int) (d : Decimal) :
    (updateBalance rows id d).map (·.ID) = rows.map (·.ID) := by
  induction rows with
  | nil => rfl
  | cons r rs ih =>
    rw [updateBalance_cons, List.map_cons, List.map_cons, ih]
    by_cases h : r.ID = id
    · rw [if_pos h]
    · rw [if_neg h]

theorem updateBalance_absent {rows : List Account} {id : Int} (d : Decimal)
    (h : id ∉ rows.map (·.ID)) : updateBalance rows id d = rows := by
  induction rows with
  | nil => rfl
  | cons r rs ih =>
    simp only [List.map_cons, List.mem_cons, not_or] at h
    have hne : ¬ r.ID = id := fun e => h.1 e.symm
    rw [updateBalance_cons, ih h.2, if_neg hne]

theorem find_cons_eq (r : Account) (rs : List Account) (id : Int) :
    (r :: rs).find? (fun a => a.ID == id) =
      if r.ID = id then some r else rs.find? (fun a => a.ID == id) := by
  by_cases h : r.ID = id
  · rw [if_pos h]
    exact List.find?_cons_of_pos _ (by simp [h])
  · rw [if_neg h]
    exact List.find?_cons_of_neg _ (by simp [h])

theorem find_updateBalance_other (rows : List Account) {id id' : Int} (d : Decimal)
    (h : id' ≠ id) :
    (updateBalance rows id d).find? (fun a => a.ID == id') =
      rows.find? (fun a => a.ID == id') := by
  induction rows with
  | nil => rfl
  | cons r rs ih =>
    rw [updateBalance_cons, find_cons_eq, find_cons_eq, ih]
    by_cases hr : r.ID = id
    · have hne : ¬ r.ID = id' := fun e => h (e.symm.trans hr)
      rw [if_pos hr, if_neg hne, if_neg hne]
    · rw [if_neg hr]

theorem find_updateBalance_same (rows : List Account) {id : Int} (d : Decimal) {a : Account}
    (h : rows.find? (fun a => a.ID == id) = some a) :
    (updateBalance rows id d).find? (fun a => a.ID == id) =
      some { a with Balance := a.Balance + d } := by
  induction rows with
  | nil => simp at h
  | cons r rs ih =>
    rw [find_cons_eq] at h
    rw [updateBalance_cons, find_cons_eq]
    by_cases hr : r.ID = id
    · rw [if_pos hr] at h
      rw [if_pos hr, if_pos hr]
      cases h
      rfl
    · rw [if_neg hr] at h
      rw [if_neg hr, if_neg hr]
      exact ih h

theorem sum_updateBalance {rows : List Account} {id : Int} (d : Decimal) {a : Account}
    (hnd : (rows.map (·.ID)).Nodup)
    (h : rows.find? (fun a => a.ID == id) = some a) :
    ((updateBalance rows id d).map (·.Balance)).sum = (rows.map (·.Balance)).sum + d := by
  induction rows with
  | nil => simp at h
  | cons r rs ih =>
    simp only [List.map_cons, List.nodup_cons] at hnd
    rw [find_cons_eq] at h
    rw [updateBalance_cons, List.map_cons, List.sum_cons, List.map_cons, List.sum_cons]
    by_cases hr : r.ID = id
    · have habs : id ∉ rs.map (·.ID) := hr ▸ hnd.1
      rw [updateBalance_absent d habs, if_pos hr]
      ring
    · rw [if_neg hr] at h
      rw [ih hnd.2 h, if_neg hr]
      ring

theorem mem_updateBalance {rows : List Account} {id : Int} {d : Decimal} {b : Account}
    (h : b ∈ updateBalance rows id d) :
    (b ∈ rows ∧ b.ID ≠ id) ∨
      (∃ a ∈ rows, a.ID = id ∧ b = { a with Balance := a.Balance + d }) := by
  simp only [updateBalance, List.mem_map] at h
  obtain ⟨a, ha, hb⟩ := h
  by_cases hid : a.ID = id
  · right
    rw [if_pos hid] at hb
    exact ⟨a, ha, hid, hb.symm⟩
  · left
    rw [if_neg hid] at hb
    subst hb
    exact ⟨ha, hid⟩

/-! ### The two SELECT ... FOR UPDATE -/

theorem queryRowForUpdate_ok {db : Store} {op : Step} {rows : List Account} {id : Int}
    {a : Account} (h : queryRowForUpdate db op rows id = .ok a) :
    db.fault op = none ∧ rows.find? (fun a => a.ID == id) = some a := by
  unfold queryRowForUpdate at h
  split at h
  · cases h
  · rename_i hf
    split at h
    · cases h
    · rename_i hfind
      cases h
      exact ⟨hf, hfind⟩

theorem queryRowForUpdate_of_found {db : Store} {op : Step} {rows : List Account} {id : Int}
    {a : Account} (hf : db.fault op = none)
    (h : rows.find? (fun a => a.ID == id) = some a) :
    queryRowForUpdate db op rows id = .ok a := by
  simp [queryRowForUpdate, hf, h]

theorem lockRows_ok {db : Store} {t : Transaction} {rows : List Account} {bal : Decimal}
    (h : (repository.lockRows db t rows).1 = .ok bal) :
    ∃ a b, rows.find? (fun a => a.ID == t.SourceAccountID) = some a ∧
      rows.find? (fun a => a.ID == t.DestinationAccountID) = some b ∧ bal = a.Balance := by
  unfold repository.lockRows at h
  split at h
  · split at h
    · cases h
    · rename_i src hsrc
      split at h
      · cases h
      · rename_i dst hdst
        cases h
        exact ⟨src, dst, (queryRowForUpdate_ok hsrc).2, (queryRowForUpdate_ok hdst).2, rfl⟩
  · split at h
    · cases h
    · rename_i dst hdst
      split at h
      · cases h
      · rename_i src hsrc
        cases h
        exact ⟨src, dst, (queryRowForUpdate_ok hsrc).2, (queryRowForUpdate_ok hdst).2, rfl⟩

theorem lockRows_of_found {db : Store} {t : Transaction} {rows : List Account}
    {a b : Account} (hfs : db.fault .selectSource = none)
    (hfd : db.fault .selectDestination = none)
    (ha : rows.find? (fun a => a.ID == t.SourceAccountID) = some a)
    (hb : rows.find? (fun a => a.ID == t.DestinationAccountID) = some b) :
    (repository.lockRows db t rows).1 = .ok a.Balance := by
  unfold repository.lockRows
  rw [queryRowForUpdate_of_found hfs ha, queryRowForUpdate_of_found hfd hb]
  split <;> rfl

/-! ### The unit of work -/

theorem transferTx_ok {db : Store} {t : Transaction} {s : Ledger} {record : Transaction}
    {s' : Ledger} (h : (repository.transferTx db t s).1 = .ok (record, s')) :
    (∃ a b, s.accounts.find? (fun a => a.ID == t.SourceAccountID) = some a ∧
      s.accounts.find? (fun a => a.ID == t.DestinationAccountID) = some b ∧
      ¬ a.Balance < t.Amount) ∧
      (db.fault .debit = none ∧ db.fault .credit = none ∧ db.fault .insert = none ∧
        db.fault .commit = none) ∧
      record = ⟨db.newID, t.SourceAccountID, t.DestinationAccountID, t.Amount⟩ ∧
      s' = ⟨updateBalance (updateBalance s.accounts t.SourceAccountID (-t.Amount))
              t.DestinationAccountID t.Amount,
            s.transactions ++
              [⟨db.newID, t.SourceAccountID, t.DestinationAccountID, t.Amount⟩]⟩ := by
  unfold repository.transferTx at h
  split at h
  · cases h
  · rename_i bal tr hlock
    have hl : (repository.lockRows db t s.accounts).1 = .ok bal := by rw [hlock]
    obtain ⟨a, b, ha, hb, hbal⟩ := lockRows_ok hl
    split at h
    · cases h
    · rename_i hsuff
      simp only at h
      split at h
      · cases h
      · rename_i hdebit
        split at h
        · cases h
        · rename_i hcredit
          split at h
          · cases h
          · rename_i hinsert
            split at h
            · cases h
            · rename_i hcommit
              simp only [Except.ok.injEq, Prod.mk.injEq] at h
              exact ⟨⟨a, b, ha, hb, hbal ▸ hsuff⟩, ⟨hdebit, hcredit, hinsert, hcommit⟩,
                h.1.symm, h.2.symm⟩

theorem transferTx_of_found {db : Store} {t : Transaction} {s : Ledger} {a b : Account}
    (hfs : db.fault .selectSource = none) (hfd : db.fault .selectDestination = none)
    (hdebit : db.fault .debit = none) (hcredit : db.fault .credit = none)
    (hinsert : db.fault .insert = none) (hcommit : db.fault .commit = none)
    (ha : s.accounts.find? (fun a => a.ID == t.SourceAccountID) = some a)
    (hb : s.accounts.find? (fun a => a.ID == t.DestinationAccountID) = some b)
    (hsuff : ¬ a.Balance < t.Amount) :
    (repository.transferTx db t s).1 =
      .ok (⟨db.newID, t.SourceAccountID, t.DestinationAccountID, t.Amount⟩,
        ⟨updateBalance (updateBalance s.accounts t.SourceAccountID (-t.Amount))
            t.DestinationAccountID t.Amount,
          s.transactions ++
            [⟨db.newID, t.SourceAccountID, t.DestinationAccountID, t.Amount⟩]⟩) := by
  have hl := lockRows_of_found hfs hfd ha hb
  unfold repository.transferTx
  split
  · rename_i err tr hlock
    rw [hlock] at hl
    cases hl
  · rename_i bal tr hlock
    rw [hlock] at hl
    cases hl
    simp [hsuff, hdebit, hcredit, hinsert, hcommit]

theorem transferTx_insufficient {db : Store} {t : Transaction} {s : Ledger} {a b : Account}
    (hfs : db.fault .selectSource = none) (hfd : db.fault .selectDestination = none)
    (ha : s.accounts.find? (fun a => a.ID == t.SourceAccountID) = some a)
    (hb : s.accounts.find? (fun a => a.ID == t.DestinationAccountID) = some b)
    (hless : a.Balance < t.Amount) :
    (repository.transferTx db t s).1 = .error .repositoryErrInsufficientBalance := by
  have hl := lockRows_of_found hfs hfd ha hb
  unfold repository.transferTx
  split
  · rename_i err tr hlock
    rw [hlock] at hl
    cases hl
  · rename_i bal tr hlock
    rw [hlock] at hl
    cases hl
    simp [hless]

theorem queryRowForUpdate_error {db : Store} {op : Step} {rows : List Account} {id : Int}
    {e : Error} (h : queryRowForUpdate db op rows id = .error e) :
    (e = .pgxErrNoRows ∧ db.fault op = none ∧ rows.find? (fun a => a.ID == id) = none) ∨
      (∃ msg, e = .driver msg ∧ db.fault op = some msg) := by
  unfold queryRowForUpdate at h
  split at h
  · rename_i msg hf
    cases h
    exact Or.inr ⟨msg, rfl, hf⟩
  · rename_i hf
    split at h
    · rename_i hfind
      cases h
      exact Or.inl ⟨rfl, hf, hfind⟩
    · cases h

/-- The errors the two SELECT ... FOR UPDATE can end in. -/
theorem lockRows_error {db : Store} {t : Transaction} {rows : List Account} {e : Error}
    (h : (repository.lockRows db t rows).1 = .error e) :
    (e = .new "source account not found" ∧ db.fault .selectSource = none ∧
        rows.find? (fun a => a.ID == t.SourceAccountID) = none) ∨
      (e = .new "destination account not found" ∧ db.fault .selectDestination = none ∧
        rows.find? (fun a => a.ID == t.DestinationAccountID) = none) ∨
      (∃ msg, e = .driver msg ∧
        (db.fault .selectSource = some msg ∨ db.fault .selectDestination = some msg)) := by
  unfold repository.lockRows at h
  split at h
  · split at h
    · rename_i err hq
      rcases queryRowForUpdate_error hq with ⟨rfl, hf, hn⟩ | ⟨msg, rfl, hf⟩
      · simp only [errorsIs, decide_True, if_true, Except.error.injEq] at h
        exact Or.inl ⟨h.symm, hf, hn⟩
      · simp [errorsIs] at h
        exact Or.inr (Or.inr ⟨msg, h.symm, Or.inl hf⟩)
    · split at h
      · rename_i err hq
        rcases queryRowForUpdate_error hq with ⟨rfl, hf, hn⟩ | ⟨msg, rfl, hf⟩
        · simp only [errorsIs, decide_True, if_true, Except.error.injEq] at h
          exact Or.inr (Or.inl ⟨h.symm, hf, hn⟩)
        · simp [errorsIs] at h
          exact Or.inr (Or.inr ⟨msg, h.symm, Or.inr hf⟩)
      · cases h
  · split at h
    · rename_i err hq
      rcases queryRowForUpdate_error hq with ⟨rfl, hf, hn⟩ | ⟨msg, rfl, hf⟩
      · simp only [errorsIs, decide_True, if_true, Except.error.injEq] at h
        exact Or.inr (Or.inl ⟨h.symm, hf, hn⟩)
      · simp [errorsIs] at h
        exact Or.inr (Or.inr ⟨msg, h.symm, Or.inr hf⟩)
    · split at h
      · rename_i err hq
        rcases queryRowForUpdate_error hq with ⟨rfl, hf, hn⟩ | ⟨msg, rfl, hf⟩
        · simp only [errorsIs, decide_True, if_true, Except.error.injEq] at h
          exact Or.inl ⟨h.symm, hf, hn⟩
        · simp [errorsIs] at h
          exact Or.inr (Or.inr ⟨msg, h.symm, Or.inl hf⟩)
      · cases h

/-- The errors the unit of work can end in, each with its cause. -/
theorem transferTx_error {db : Store} {t : Transaction} {s : Ledger} {e : Error}
    (h : (repository.transferTx db t s).1 = .error e) :
    (e = .new "source account not found" ∧ db.fault .selectSource = none ∧
        s.accounts.find? (fun a => a.ID == t.SourceAccountID) = none) ∨
      (e = .new "destination account not found" ∧ db.fault .selectDestination = none ∧
        s.accounts.find? (fun a => a.ID == t.DestinationAccountID) = none) ∨
      (e = .repositoryErrInsufficientBalance ∧
        ∃ a b, s.accounts.find? (fun a => a.ID == t.SourceAccountID) = some a ∧
          s.accounts.find? (fun a => a.ID == t.DestinationAccountID) = some b ∧
          a.Balance < t.Amount) ∨
      (∃ msg op, e = .driver msg ∧ db.fault op = some msg) := by
  unfold repository.transferTx at h
  split at h
  · rename_i err tr hlock
    have hl : (repository.lockRows db t s.accounts).1 = .error err := by rw [hlock]
    simp only [Except.error.injEq] at h
    subst h
    rcases lockRows_error hl with h1 | h1 | ⟨msg, he, hf | hf⟩
    · exact Or.inl h1
    · exact Or.inr (Or.inl h1)
    · exact Or.inr (Or.inr (Or.inr ⟨msg, _, he, hf⟩))
    · exact Or.inr (Or.inr (Or.inr ⟨msg, _, he, hf⟩))
  · rename_i bal tr hlock
    have hl : (repository.lockRows db t s.accounts).1 = .ok bal := by rw [hlock]
    obtain ⟨a, b, ha, hb, hbal⟩ := lockRows_ok hl
    split at h
    · rename_i hless
      simp only [Except.error.injEq] at h
      exact Or.inr (Or.inr (Or.inl ⟨h.symm, a, b, ha, hb, hbal ▸ hless⟩))
    · simp only at h
      split at h
      · rename_i msg hf
        simp only [Except.error.injEq] at h
        exact Or.inr (Or.inr (Or.inr ⟨msg, _, h.symm, hf⟩))
      · split at h
        · rename_i msg hf
          simp only [Except.error.injEq] at h
          exact Or.inr (Or.inr (Or.inr ⟨msg, _, h.symm, hf⟩))
        · split at h
          · rename_i msg hf
            simp only [Except.error.injEq] at h
            exact Or.inr (Or.inr (Or.inr ⟨msg, _, h.symm, hf⟩))
          · split at h
            · rename_i msg hf
              simp only [Except.error.injEq] at h
              exact Or.inr (Or.inr (Or.inr ⟨msg, _, h.symm, hf⟩))
            · cases h

/-! ### `PGRepository.TransferMoney` as a whole -/

/-- A call that returns an error returns no record and commits nothing. -/
theorem TransferMoney_failed {db : Store} {t : Transaction} {s : Ledger} {e : Error}
    (h : (repository.TransferMoney db t s).result.2 = some e) :
    (repository.TransferMoney db t s).result.1 = none ∧
      (repository.TransferMoney db t s).committed = s := by
  unfold repository.TransferMoney at h ⊢
  split
  · exact ⟨rfl, rfl⟩
  · rename_i hbegin
    rw [hbegin] at h
    simp only at h
    split
    · exact ⟨rfl, rfl⟩
    · rename_i record s' tr htx
      rw [htx] at h
      cases h

/-- A call that returns no error found both rows, had the funds, met no
fault, returned the record and committed the two updates and the insert. -/
theorem TransferMoney_succeeded {db : Store} {t : Transaction} {s : Ledger}
    (h : (repository.TransferMoney db t s).result.2 = none) :
    (∃ a b, s.accounts.find? (fun a => a.ID == t.SourceAccountID) = some a ∧
      s.accounts.find? (fun a => a.ID == t.DestinationAccountID) = some b ∧
      ¬ a.Balance < t.Amount) ∧
      (db.fault .debit = none ∧ db.fault .credit = none ∧ db.fault .insert = none ∧
        db.fault .commit = none) ∧
      (repository.TransferMoney db t s).result.1 =
        some ⟨db.newID, t.SourceAccountID, t.DestinationAccountID, t.Amount⟩ ∧
      (repository.TransferMoney db t s).committed =
        ⟨updateBalance (updateBalance s.accounts t.SourceAccountID (-t.Amount))
            t.DestinationAccountID t.Amount,
          s.transactions ++
            [⟨db.newID, t.SourceAccountID, t.DestinationAccountID, t.Amount⟩]⟩ := by
  unfold repository.TransferMoney at h ⊢
  split
  · rename_i msg hbegin
    rw [hbegin] at h
    cases h
  · rename_i hbegin
    rw [hbegin] at h
    simp only at h
    split
    · rename_i err tr htx
      rw [htx] at h
      cases h
    · rename_i record s' tr htx
      have hok : (repository.transferTx db t s).1 = .ok (record, s') := by rw [htx]
      obtain ⟨hfound, hfaults, hrec, hs'⟩ := transferTx_ok hok
      exact ⟨hfound, hfaults, by rw [hrec], hs'⟩

/-- An error that a call returns, with its cause. -/
theorem TransferMoney_error {db : Store} {t : Transaction} {s : Ledger} {e : Error}
    (h : (repository.TransferMoney db t s).result.2 = some e) :
    (e = .new "source account not found" ∧ db.fault .selectSource = none ∧
        s.accounts.find? (fun a => a.ID == t.SourceAccountID) = none) ∨
      (e = .new "destination account not found" ∧ db.fault .selectDestination = none ∧
        s.accounts.find? (fun a => a.ID == t.DestinationAccountID) = none) ∨
      (e = .repositoryErrInsufficientBalance ∧
        ∃ a b, s.accounts.find? (fun a => a.ID == t.SourceAccountID) = some a ∧
          s.accounts.find? (fun a => a.ID == t.DestinationAccountID) = some b ∧
          a.Balance < t.Amount) ∨
      (∃ msg op, e = .driver msg ∧ db.fault op = some msg) := by
  unfold repository.TransferMoney at h
  split at h
  · rename_i msg hbegin
    simp only [Option.some.injEq] at h
    exact Or.inr (Or.inr (Or.inr ⟨msg, _, h.symm, hbegin⟩))
  · split at h
    · rename_i err tr htx
      have herr : (repository.transferTx db t s).1 = .error err := by rw [htx]
      simp only [Option.some.injEq] at h
      exact h ▸ transferTx_error herr
    · cases h

/-- On a store that answers every statement, with both rows present and the
funds there, the call commits. -/
theorem TransferMoney_of_found {db : Store} {t : Transaction} {s : Ledger} {a b : Account}
    (hbegin : db.fault .begin = none)
    (hfs : db.fault .selectSource = none) (hfd : db.fault .selectDestination = none)
    (hdebit : db.fault .debit = none) (hcredit : db.fault .credit = none)
    (hinsert : db.fault .insert = none) (hcommit : db.fault .commit = none)
    (ha : s.accounts.find? (fun a => a.ID == t.SourceAccountID) = some a)
    (hb : s.accounts.find? (fun a => a.ID == t.DestinationAccountID) = some b)
    (hsuff : ¬ a.Balance < t.Amount) :
    (repository.TransferMoney db t s).result =
        (some ⟨db.newID, t.SourceAccountID, t.DestinationAccountID, t.Amount⟩, none) ∧
      (repository.TransferMoney db t s).committed =
        ⟨updateBalance (updateBalance s.accounts t.SourceAccountID (-t.Amount))
            t.DestinationAccountID t.Amount,
          s.transactions ++
            [⟨db.newID, t.SourceAccountID, t.DestinationAccountID, t.Amount⟩]⟩ := by
  have htx := transferTx_of_found hfs hfd hdebit hcredit hinsert hcommit ha hb hsuff
  unfold repository.TransferMoney
  rw [hbegin]
  simp only
  split
  · rename_i err tr h
    rw [h] at htx
    cases htx
  · rename_i record s' tr h
    rw [h] at htx
    simp only [Except.ok.injEq, Prod.mk.injEq] at htx
    exact ⟨by rw [htx.1], htx.2⟩

/-- With both rows present and read, a source balance below the amount ends
the call with `ErrInsufficientBalance`. -/
theorem TransferMoney_insufficient {db : Store} {t : Transaction} {s : Ledger} {a b : Account}
    (hbegin : db.fault .begin = none)
    (hfs : db.fault .selectSource = none) (hfd : db.fault .selectDestination = none)
    (ha : s.accounts.find? (fun a => a.ID == t.SourceAccountID) = some a)
    (hb : s.accounts.find? (fun a => a.ID == t.DestinationAccountID) = some b)
    (hless : a.Balance < t.Amount) :
    (repository.TransferMoney db t s).result =
        (none, some .repositoryErrInsufficientBalance) ∧
      (repository.TransferMoney db t s).committed = s := by
  have htx := transferTx_insufficient hfs hfd ha hb hless
  unfold repository.TransferMoney
  rw [hbegin]
  simp only
  split
  · rename_i err tr h
    rw [h] at htx
    simp only [Except.error.injEq] at htx
    exact ⟨by rw [htx], rfl⟩
  · rename_i record s' tr h
    rw [h] at htx
    cases htx

/-- What `service.TransferMoney` leaves of the ledger: nothing new on a request
that fails validation, what the one repository call committed otherwise. -/
theorem service_state (db : Store) (t : Transaction) (s : Ledger) :
    (¬ Valid t ∧ (service.TransferMoney (repository.PGRepository db) t s).2 = s) ∨
      (Valid t ∧ (service.TransferMoney (repository.PGRepository db) t s).2 =
        (repository.TransferMoney db t s).committed) := by
  by_cases hv : Valid t
  · right
    refine ⟨hv, ?_⟩
    obtain ⟨h1, h2, h3, h4⟩ := hv
    have hid : ¬ (t.SourceAccountID ≤ 0 ∨ t.DestinationAccountID ≤ 0) := by
      push_neg; exact ⟨h3, h4⟩
    simp only [service.TransferMoney, h1, not_le.mpr h2, hid, if_false,
      repository.PGRepository]
    rcases hres : (repository.TransferMoney db t s).result with ⟨record, err⟩
    cases err with
    | none => rfl
    | some err =>
      by_cases hi : errorsIs err .repositoryErrInsufficientBalance = true
      · simp [hi]
      · simp [hi]
  · left
    refine ⟨hv, ?_⟩
    unfold Valid at hv
    by_cases h1 : t.SourceAccountID = t.DestinationAccountID
    · simp [service.TransferMoney, h1]
    · by_cases h2 : t.Amount ≤ 0
      · simp [service.TransferMoney, h1, h2]
      · have h3 : t.SourceAccountID ≤ 0 ∨ t.DestinationAccountID ≤ 0 := by
          by_contra hc
          push_neg at hc
          exact hv ⟨h1, not_le.mp h2, hc.1, hc.2⟩
        simp [service.TransferMoney, h1, h2, h3]

/-- The error `service.TransferMoney` returns on a request that passes
validation, from the error of the repository call. -/
theorem service_result_of_valid (db : Store) {t : Transaction} (s : Ledger) (hv : Valid t) :
    (service.TransferMoney (repository.PGRepository db) t s).1 =
      match (repository.TransferMoney db t s).result.2 with
      | some err =>
        if errorsIs err .repositoryErrInsufficientBalance then some .ErrInsufficientBalance
        else some err
      | none => none := by
  obtain ⟨h1, h2, h3, h4⟩ := hv
  have hid : ¬ (t.SourceAccountID ≤ 0 ∨ t.DestinationAccountID ≤ 0) := by
    push_neg; exact ⟨h3, h4⟩
  simp only [service.TransferMoney, h1, not_le.mpr h2, hid, if_false,
    repository.PGRepository]
  rcases hres : (repository.TransferMoney db t s).result with ⟨record, err⟩
  cases err with
  | none => rfl
  | some err =>
    by_cases hi : errorsIs err .repositoryErrInsufficientBalance = true
    · simp [hi]
    · simp [hi]

/-! ### One committed call: key, total and sign of the balances -/

theorem find_unique {rows : List Account} {id : Int} {a a' : Account}
    (hnd : (rows.map (·.ID)).Nodup)
    (h : rows.find? (fun a => a.ID == id) = some a) (hmem : a' ∈ rows) (hid : a'.ID = id) :
    a' = a := by
  induction rows with
  | nil => simp at h
  | cons r rs ih =>
    simp only [List.map_cons, List.nodup_cons] at hnd
    rw [find_cons_eq] at h
    rcases List.mem_cons.mp hmem with rfl | hmem'
    · rw [if_pos hid] at h
      cases h
      rfl
    · by_cases hr : r.ID = id
      · exfalso
        apply hnd.1
        rw [hr, ← hid]
        exact List.mem_map_of_mem _ hmem'
      · rw [if_neg hr] at h
        exact ih hnd.2 h hmem'

theorem find_isSome_updateBalance {rows : List Account} (id : Int) {id' : Int} (d : Decimal)
    {b : Account} (h : rows.find? (fun a => a.ID == id') = some b) :
    ∃ b', (updateBalance rows id d).find? (fun a => a.ID == id') = some b' := by
  cases hf : (updateBalance rows id d).find? (fun a => a.ID == id') with
  | some b' => exact ⟨b', rfl⟩
  | none =>
    exfalso
    rw [find_none_iff, updateBalance_ids, ← find_none_iff, h] at hf
    cases hf

/-- One call keeps the primary key and the sum of the balances. -/
theorem TransferMoney_step_total (db : Store) (t : Transaction) (s : Ledger) (hwf : s.WF) :
    (repository.TransferMoney db t s).committed.WF ∧
      (repository.TransferMoney db t s).committed.total = s.total := by
  cases hres : (repository.TransferMoney db t s).result.2 with
  | some e =>
    rw [(TransferMoney_failed hres).2]
    exact ⟨hwf, rfl⟩
  | none =>
    obtain ⟨⟨a, b, ha, hb, _⟩, _, _, hcommitted⟩ := TransferMoney_succeeded hres
    rw [hcommitted]
    have hwf1 : ((updateBalance s.accounts t.SourceAccountID (-t.Amount)).map (·.ID)).Nodup := by
      rw [updateBalance_ids]; exact hwf
    constructor
    · unfold Ledger.WF
      simp only
      rw [updateBalance_ids]
      exact hwf1
    · obtain ⟨b', hb'⟩ := find_isSome_updateBalance t.SourceAccountID (-t.Amount) hb
      unfold Ledger.total
      simp only
      rw [sum_updateBalance t.Amount hwf1 hb', sum_updateBalance (-t.Amount) hwf ha]
      ring

/-- One call through the service keeps the primary key and the sum of the
balances. -/
theorem service_step_total (db : Store) (t : Transaction) (s : Ledger) (hwf : s.WF) :
    (service.TransferMoney (repository.PGRepository db) t s).2.WF ∧
      (service.TransferMoney (repository.PGRepository db) t s).2.total = s.total := by
  rcases service_state db t s with ⟨_, h⟩ | ⟨_, h⟩
  · rw [h]; exact ⟨hwf, rfl⟩
  · rw [h]; exact TransferMoney_step_total db t s hwf

theorem runRepository_total (steps : List (Store × Transaction)) (s : Ledger) (hwf : s.WF) :
    (runRepository steps s).WF ∧ (runRepository steps s).total = s.total := by
  induction steps generalizing s with
  | nil => exact ⟨hwf, rfl⟩
  | cons p rest ih =>
    obtain ⟨db, t⟩ := p
    have hstep := TransferMoney_step_total db t s hwf
    have := ih _ hstep.1
    simp only [runRepository]
    exact ⟨this.1, this.2.trans hstep.2⟩

theorem runService_total (steps : List (Store × Transaction)) (s : Ledger) (hwf : s.WF) :
    (runService steps s).WF ∧ (runService steps s).total = s.total := by
  induction steps generalizing s with
  | nil => exact ⟨hwf, rfl⟩
  | cons p rest ih =>
    obtain ⟨db, t⟩ := p
    have hstep := service_step_total db t s hwf
    have := ih _ hstep.1
    simp only [runService]
    exact ⟨this.1, this.2.trans hstep.2⟩

/-- A committed call with a positive amount and distinct accounts leaves no
balance negative. -/
theorem TransferMoney_step_nonneg (db : Store) (t : Transaction) (s : Ledger)
    (hwf : s.WF) (hnn : s.NonNeg) (hne : t.SourceAccountID ≠ t.DestinationAccountID)
    (hpos : 0 < t.Amount) : (repository.TransferMoney db t s).committed.NonNeg := by
  cases hres : (repository.TransferMoney db t s).result.2 with
  | some e =>
    rw [(TransferMoney_failed hres).2]
    exact hnn
  | none =>
    obtain ⟨⟨a, b, ha, hb, hsuff⟩, _, _, hcommitted⟩ := TransferMoney_succeeded hres
    rw [hcommitted]
    intro x hx
    simp only at hx
    have hdebit : ∀ y ∈ updateBalance s.accounts t.SourceAccountID (-t.Amount),
        0 ≤ y.Balance ∧ (y.ID = t.DestinationAccountID → y ∈ s.accounts) := by
      intro y hy
      rcases mem_updateBalance hy with ⟨hmem, hid⟩ | ⟨z, hz, hzid, rfl⟩
      · exact ⟨hnn y hmem, fun _ => hmem⟩
      · have hza : z = a := find_unique hwf ha hz hzid
        subst hza
        refine ⟨?_, ?_⟩
        · simp only
          linarith [not_lt.mp hsuff]
        · intro hid
          simp only at hid
          exact absurd (hzid.symm.trans hid) hne
    rcases mem_updateBalance hx with ⟨hmem, _⟩ | ⟨z, hz, hzid, rfl⟩
    · exact (hdebit x hmem).1
    · simp only
      have := (hdebit z hz).1
      linarith

/-- C1: `service.TransferMoney` applies the validation rules in order and the
first failing rule decides the error: equal ids give
`ErrSameSourceAndDestination` whatever the amount and the ids are; otherwise a
non-positive amount gives `ErrNonPositiveAmount` whatever the ids are;
otherwise a non-positive id gives `ErrInvalidAccountIDs`; and on a request that
passes all three, any of these three errors the service returns is the error
the repository returned, not one made by validation; on the `PGRepository`,
which returns none of them, the service then returns none of the three. -/
theorem service_TransferMoney_validation_precedence {σ : Type} (repo : Repository σ)
    (t : Transaction) (st : σ) :
    (t.SourceAccountID = t.DestinationAccountID →
      service.TransferMoney repo t st = (some .ErrSameSourceAndDestination, st)) ∧
    (t.SourceAccountID ≠ t.DestinationAccountID → t.Amount ≤ 0 →
      service.TransferMoney repo t st = (some .ErrNonPositiveAmount, st)) ∧
    (t.SourceAccountID ≠ t.DestinationAccountID → 0 < t.Amount →
      (t.SourceAccountID ≤ 0 ∨ t.DestinationAccountID ≤ 0) →
      service.TransferMoney repo t st = (some .ErrInvalidAccountIDs, st)) ∧
    (t.SourceAccountID ≠ t.DestinationAccountID → 0 < t.Amount →
      0 < t.SourceAccountID → 0 < t.DestinationAccountID →
      ∀ e, e = Error.ErrSameSourceAndDestination ∨ e = Error.ErrNonPositiveAmount ∨
          e = Error.ErrInvalidAccountIDs →
        (service.TransferMoney repo t st).1 = some e →
        (repo.TransferMoney t st).1.2 = some e) ∧
    (t.SourceAccountID ≠ t.DestinationAccountID → 0 < t.Amount →
      0 < t.SourceAccountID → 0 < t.DestinationAccountID →
      ∀ (db : Store) (s : Ledger),
        (service.TransferMoney (repository.PGRepository db) t s).1 ≠
            some .ErrSameSourceAndDestination ∧
          (service.TransferMoney (repository.PGRepository db) t s).1 ≠
            some .ErrNonPositiveAmount ∧
          (service.TransferMoney (repository.PGRepository db) t s).1 ≠
            some .ErrInvalidAccountIDs) := by
  refine ⟨?_, ?_, ?_, ?_, ?_⟩
  rotate_left 4
  · intro h ha hs hd db s
    have hres := service_result_of_valid db s (t := t) ⟨h, ha, hs, hd⟩
    cases herr : (repository.TransferMoney db t s).result.2 with
    | none =>
      rw [herr] at hres
      rw [hres]
      simp
    | some err =>
      rw [herr] at hres
      rw [hres]
      rcases TransferMoney_error herr with ⟨he, _⟩ | ⟨he, _⟩ | ⟨he, _⟩ | ⟨msg, op, he, _⟩ <;>
        subst he <;> simp [errorsIs]
  · intro h
    simp [service.TransferMoney, h]
  · intro h ha
    simp [service.TransferMoney, h, ha]
  · intro h ha hid
    simp [service.TransferMoney, h, not_le.mpr ha, hid]
  · intro h ha hs hd e he hr
    have hid : ¬ (t.SourceAccountID ≤ 0 ∨ t.DestinationAccountID ≤ 0) := by
      push_neg; exact ⟨hs, hd⟩
    simp only [service.TransferMoney, h, not_le.mpr ha, hid, if_false] at hr
    rcases hrepo : repo.TransferMoney t st with ⟨⟨rec, err⟩, st'⟩
    rw [hrepo] at hr
    cases err with
    | none => simp at hr
    | some err =>
      by_cases hi : errorsIs err .repositoryErrInsufficientBalance = true
      · simp [hi] at hr
        rcases he with he | he | he <;> rw [he] at hr <;> cases hr
      · simp [hi] at hr
        simp [hr]

/-- Witness for C1: source 1 = destination 1 with amount -10 on the test double
gives `ErrSameSourceAndDestination`, not `ErrNonPositiveAmount`. -/
theorem service_TransferMoney_validation_precedence_witness :
    service.TransferMoney (mock.mockRepository (none : Option (Account → Unit → _)) none)
        ⟨0, 1, 1, -10⟩ ⟨0, 0, ⟨0, 0, 0, 0⟩, ()⟩ =
      (some .ErrSameSourceAndDestination, ⟨0, 0, ⟨0, 0, 0, 0⟩, ()⟩) :=
  (service_TransferMoney_validation_precedence
    (mock.mockRepository (none : Option (Account → Unit → _)) none)
    ⟨0, 1, 1, -10⟩ ⟨0, 0, ⟨0, 0, 0, 0⟩, ()⟩).1 rfl

/-- C2: on the counting double of service_test.go around any repository
behaviour, `service.TransferMoney` leaves the double untouched (zero calls)
when the request fails validation, and when the request passes validation it
makes exactly one `TransferMoney` call, with the request as argument, and the
state the one call leaves is the state after the service returns, whatever the
call returned. -/
theorem service_TransferMoney_calls_repository_iff_valid {σ : Type}
    (createAccountFn : Option (Account → σ → (Option Account × Option Error) × σ))
    (fn : Transaction → σ → (Option Transaction × Option Error) × σ)
    (t : Transaction) (m : mock.State σ) :
    (¬ Valid t →
      (service.TransferMoney (mock.mockRepository createAccountFn (some fn)) t m).2 = m) ∧
    (Valid t →
      (service.TransferMoney (mock.mockRepository createAccountFn (some fn)) t m).2 =
        { m with transferMoneyCalls := m.transferMoneyCalls + 1, lastTransferTx := t,
                 captured := (fn t m.captured).2 }) := by
  constructor
  · intro hv
    unfold Valid at hv
    by_cases h1 : t.SourceAccountID = t.DestinationAccountID
    · simp [service.TransferMoney, h1]
    · by_cases h2 : t.Amount ≤ 0
      · simp [service.TransferMoney, h1, h2]
      · have h3 : t.SourceAccountID ≤ 0 ∨ t.DestinationAccountID ≤ 0 := by
          by_contra hc
          push_neg at hc
          exact hv ⟨h1, not_le.mp h2, hc.1, hc.2⟩
        simp [service.TransferMoney, h1, h2, h3]
  · rintro ⟨h1, h2, h3, h4⟩
    have hid : ¬ (t.SourceAccountID ≤ 0 ∨ t.DestinationAccountID ≤ 0) := by
      push_neg; exact ⟨h3, h4⟩
    simp only [service.TransferMoney, h1, not_le.mpr h2, hid, if_false,
      mock.mockRepository]
    rcases hfn : fn t m.captured with ⟨⟨rec, err⟩, c⟩
    cases err with
    | none => rfl
    | some err =>
      by_cases hi : errorsIs err .repositoryErrInsufficientBalance = true
      · simp [hi]
      · simp [hi]

/-- Witness for C2: the request of `TestDefaultService_TransferMoney_Success`
(10 to 20, amount 99) on a double whose closure fails: one call, argument
recorded. -/
theorem service_TransferMoney_calls_repository_iff_valid_witness :
    (service.TransferMoney
        (mock.mockRepository (none : Option (Account → Unit → _))
          (some (fun _ c => ((none, some (Error.driver "db failure")), c))))
        ⟨0, 10, 20, 99⟩ ⟨0, 0, ⟨0, 0, 0, 0⟩, ()⟩).2 =
      ⟨0, 1, ⟨0, 10, 20, 99⟩, ()⟩ :=
  (service_TransferMoney_calls_repository_iff_valid none
    (fun _ c => ((none, some (Error.driver "db failure")), c))
    ⟨0, 10, 20, 99⟩ ⟨0, 0, ⟨0, 0, 0, 0⟩, ()⟩).2
    ⟨by decide, by norm_num, by decide, by decide⟩

/-- C3: for a request with distinct accounts and a positive amount, both
accounts present with balances `bs` and `bd`, `amount <= bs`, on a store on
which no statement fails, `repository.TransferMoney` returns the record and
commits a ledger in which the source balance is `bs - amount`, the destination
balance is `bd + amount`, and the transfer log is the old log with the one
record (source, destination, amount) appended. -/
theorem repository_TransferMoney_commits_transfer (db : Store) (t : Transaction) (s : Ledger)
    (bs bd : Decimal)
    (hne : t.SourceAccountID ≠ t.DestinationAccountID) (_hpos : 0 < t.Amount)
    (hs : s.balance t.SourceAccountID = some bs)
    (hd : s.balance t.DestinationAccountID = some bd)
    (hsuff : t.Amount ≤ bs) (hok : ∀ op, db.fault op = none) :
    (repository.TransferMoney db t s).result =
        (some ⟨db.newID, t.SourceAccountID, t.DestinationAccountID, t.Amount⟩, none) ∧
      (repository.TransferMoney db t s).committed.balance t.SourceAccountID =
        some (bs - t.Amount) ∧
      (repository.TransferMoney db t s).committed.balance t.DestinationAccountID =
        some (bd + t.Amount) ∧
      (repository.TransferMoney db t s).committed.transactions =
        s.transactions ++
          [⟨db.newID, t.SourceAccountID, t.DestinationAccountID, t.Amount⟩] := by
  simp only [Ledger.balance, Ledger.find, Option.map_eq_some'] at hs hd
  obtain ⟨a, ha, hab⟩ := hs
  obtain ⟨b, hb, hbb⟩ := hd
  have hsuff' : ¬ a.Balance < t.Amount := by rw [hab]; exact not_lt.mpr hsuff
  obtain ⟨hres, hcommitted⟩ := TransferMoney_of_found (hok .begin) (hok .selectSource)
    (hok .selectDestination) (hok .debit) (hok .credit) (hok .insert) (hok .commit)
    ha hb hsuff'
  refine ⟨hres, ?_, ?_, ?_⟩
  · rw [hcommitted]
    simp only [Ledger.balance, Ledger.find]
    rw [find_updateBalance_other _ _ hne, find_updateBalance_same _ _ ha]
    simp only [Option.map_some', hab, sub_eq_add_neg]
  · rw [hcommitted]
    simp only [Ledger.balance, Ledger.find]
    have hb1 : (updateBalance s.accounts t.SourceAccountID (-t.Amount)).find?
        (fun a => a.ID == t.DestinationAccountID) = some b := by
      rw [find_updateBalance_other _ _ (Ne.symm hne), hb]
    rw [find_updateBalance_same _ _ hb1]
    simp only [Option.map_some', hbb]
  · rw [hcommitted]

/-- Witness for C3, the scenario of §8: balances 100.00 and 0.00, 25.50 from
account 1 to account 2 gives 74.50 and 25.50 and the one record (1, 2, 25.50). -/
theorem repository_TransferMoney_commits_transfer_witness :
    (repository.TransferMoney (Store.healthy 1) ⟨0, 1, 2, 51 / 2⟩
        ⟨[⟨1, 100⟩, ⟨2, 0⟩], []⟩).committed.balance 1 = some (149 / 2) ∧
      (repository.TransferMoney (Store.healthy 1) ⟨0, 1, 2, 51 / 2⟩
        ⟨[⟨1, 100⟩, ⟨2, 0⟩], []⟩).committed.balance 2 = some (51 / 2) ∧
      (repository.TransferMoney (Store.healthy 1) ⟨0, 1, 2, 51 / 2⟩
        ⟨[⟨1, 100⟩, ⟨2, 0⟩], []⟩).committed.transactions = [⟨1, 1, 2, 51 / 2⟩] := by
  have h := repository_TransferMoney_commits_transfer (Store.healthy 1) ⟨0, 1, 2, 51 / 2⟩
    ⟨[⟨1, 100⟩, ⟨2, 0⟩], []⟩ 100 0 (by decide) (by norm_num)
    (by simp [Ledger.balance, Ledger.find]) (by simp [Ledger.balance, Ledger.find])
    (by norm_num) (fun _ => rfl)
  refine ⟨?_, ?_, ?_⟩
  · rw [h.2.1]; norm_num
  · rw [h.2.2.1]; norm_num
  · rw [h.2.2.2]; rfl

/-- C4: from any ledger (account ids unique), after any finite sequence of
transfer requests run one after another, whether directly through
`repository.TransferMoney` or through `service.TransferMoney`, whatever the
store does at each call, the sum of all account balances is what it was before
the sequence. -/
theorem TransferMoney_conserves_total (steps : List (Store × Transaction)) (s : Ledger)
    (hwf : s.WF) :
    (runRepository steps s).total = s.total ∧ (runService steps s).total = s.total :=
  ⟨(runRepository_total steps s hwf).2, (runService_total steps s hwf).2⟩

/-- Witness for C4: 25.50 from 1 to 2, then 200 from 2 to 1 (rejected for
funds), then 10 from 2 to 1 on a store whose commit fails; the total stays 100. -/
theorem TransferMoney_conserves_total_witness :
    (runRepository
        [(Store.healthy 1, ⟨0, 1, 2, 51 / 2⟩), (Store.healthy 2, ⟨0, 2, 1, 200⟩),
         (Store.failingAt .commit "commit failed" 3, ⟨0, 2, 1, 10⟩)]
        ⟨[⟨1, 100⟩, ⟨2, 0⟩], []⟩).total = (⟨[⟨1, 100⟩, ⟨2, 0⟩], []⟩ : Ledger).total ∧
      (runService
        [(Store.healthy 1, ⟨0, 1, 2, 51 / 2⟩), (Store.healthy 2, ⟨0, 2, 1, 200⟩),
         (Store.failingAt .commit "commit failed" 3, ⟨0, 2, 1, 10⟩)]
        ⟨[⟨1, 100⟩, ⟨2, 0⟩], []⟩).total = (⟨[⟨1, 100⟩, ⟨2, 0⟩], []⟩ : Ledger).total :=
  TransferMoney_conserves_total _ _ (by decide)

/-- C5: from a ledger (account ids unique) in which every balance is >= 0,
the ledger that `service.TransferMoney` on the `PGRepository` leaves, for any
request and whatever the store does, again has every balance >= 0. -/
theorem service_TransferMoney_preserves_nonneg (db : Store) (t : Transaction) (s : Ledger)
    (hwf : s.WF) (hnn : s.NonNeg) :
    (service.TransferMoney (repository.PGRepository db) t s).2.NonNeg := by
  rcases service_state db t s with ⟨_, h⟩ | ⟨hv, h⟩
  · rw [h]; exact hnn
  · rw [h]; exact TransferMoney_step_nonneg db t s hwf hnn hv.1 hv.2.1

/-- Witness for C5: the whole balance 100 of account 1 moved to account 2. -/
theorem service_TransferMoney_preserves_nonneg_witness :
    (service.TransferMoney (repository.PGRepository (Store.healthy 1)) ⟨0, 1, 2, 100⟩
      ⟨[⟨1, 100⟩, ⟨2, 0⟩], []⟩).2.NonNeg :=
  service_TransferMoney_preserves_nonneg (Store.healthy 1) ⟨0, 1, 2, 100⟩
    ⟨[⟨1, 100⟩, ⟨2, 0⟩], []⟩ (by decide) (by simp [Ledger.NonNeg])

/-- C7: for a request that passes validation and whose two accounts exist,
source balance `bs`: the repository returns `repository.ErrInsufficientBalance`,
and the service `service.ErrInsufficientBalance`, only if `bs < amount`
(strictly); and if `bs < amount`, on a store that answers `Begin` and the two
`SELECT ... FOR UPDATE`, they do return these errors, and the committed ledger
is the ledger before the call (no balance changed, no record appended). -/
theorem TransferMoney_insufficient_funds (db : Store) (t : Transaction) (s : Ledger)
    (bs : Decimal) (hv : Valid t)
    (hs : s.balance t.SourceAccountID = some bs)
    (hd : (s.find t.DestinationAccountID).isSome = true) :
    ((repository.TransferMoney db t s).result.2 = some .repositoryErrInsufficientBalance →
        bs < t.Amount) ∧
      ((service.TransferMoney (repository.PGRepository db) t s).1 =
          some .ErrInsufficientBalance → bs < t.Amount) ∧
      (db.fault .begin = none → db.fault .selectSource = none →
        db.fault .selectDestination = none → bs < t.Amount →
        (repository.TransferMoney db t s).result =
            (none, some .repositoryErrInsufficientBalance) ∧
          (repository.TransferMoney db t s).committed = s ∧
          service.TransferMoney (repository.PGRepository db) t s =
            (some .ErrInsufficientBalance, s)) := by
  simp only [Ledger.balance, Ledger.find, Option.map_eq_some'] at hs
  obtain ⟨a, ha, hab⟩ := hs
  obtain ⟨b, hb⟩ := Option.isSome_iff_exists.mp hd
  simp only [Ledger.find] at hb
  have hrepo : (repository.TransferMoney db t s).result.2 =
      some .repositoryErrInsufficientBalance → bs < t.Amount := by
    intro h
    rcases TransferMoney_error h with ⟨he, _⟩ | ⟨he, _⟩ | ⟨_, a', _, ha', _, hless⟩ |
      ⟨msg, op, he, _⟩
    · cases he
    · cases he
    · rw [ha] at ha'
      cases ha'
      exact hab ▸ hless
    · cases he
  refine ⟨hrepo, ?_, ?_⟩
  · intro h
    rw [service_result_of_valid db s hv] at h
    cases hres : (repository.TransferMoney db t s).result.2 with
    | none => rw [hres] at h; cases h
    | some err =>
      rw [hres] at h
      simp only at h
      rcases TransferMoney_error hres with ⟨he, _⟩ | ⟨he, _⟩ | ⟨he, _⟩ | ⟨msg, op, he, _⟩
      · subst he; simp [errorsIs] at h
      · subst he; simp [errorsIs] at h
      · subst he; exact hrepo hres
      · subst he; simp [errorsIs] at h
  · intro hbegin hfs hfd hless
    have hless' : a.Balance < t.Amount := by rw [hab]; exact hless
    obtain ⟨hres, hcommitted⟩ := TransferMoney_insufficient hbegin hfs hfd ha hb hless'
    refine ⟨hres, hcommitted, ?_⟩
    have h1 := service_result_of_valid db s hv
    rw [hres] at h1
    rcases service_state db t s with ⟨hnv, _⟩ | ⟨_, h2⟩
    · exact absurd hv hnv
    · rw [hcommitted] at h2
      exact Prod.ext (by rw [h1]; rfl) h2

/-- Witness for C7, the case of §8: amount 101 from balance 100. -/
theorem TransferMoney_insufficient_funds_witness :
    (repository.TransferMoney (Store.healthy 1) ⟨0, 1, 2, 101⟩
          ⟨[⟨1, 100⟩, ⟨2, 0⟩], []⟩).result =
        (none, some .repositoryErrInsufficientBalance) ∧
      (repository.TransferMoney (Store.healthy 1) ⟨0, 1, 2, 101⟩
          ⟨[⟨1, 100⟩, ⟨2, 0⟩], []⟩).committed = ⟨[⟨1, 100⟩, ⟨2, 0⟩], []⟩ ∧
      service.TransferMoney (repository.PGRepository (Store.healthy 1)) ⟨0, 1, 2, 101⟩
          ⟨[⟨1, 100⟩, ⟨2, 0⟩], []⟩ =
        (some .ErrInsufficientBalance, ⟨[⟨1, 100⟩, ⟨2, 0⟩], []⟩) :=
  (TransferMoney_insufficient_funds (Store.healthy 1) ⟨0, 1, 2, 101⟩
    ⟨[⟨1, 100⟩, ⟨2, 0⟩], []⟩ 100 ⟨by decide, by norm_num, by decide, by decide⟩
    (by simp [Ledger.balance, Ledger.find]) (by simp [Ledger.find])).2.2
    rfl rfl rfl (by norm_num)

/-- C8: if the store fails the debit UPDATE, the credit UPDATE, the record
INSERT or the commit, then whatever the request and the ledger,
`repository.TransferMoney` returns an error and no record, and the committed
ledger is the ledger before the call, also as seen through the service. -/
theorem TransferMoney_atomic_under_failure (db : Store) (t : Transaction) (s : Ledger)
    (op : Step) (msg : String)
    (hop : op = .debit ∨ op = .credit ∨ op = .insert ∨ op = .commit)
    (hf : db.fault op = some msg) :
    (repository.TransferMoney db t s).result.1 = none ∧
      (∃ e, (repository.TransferMoney db t s).result.2 = some e) ∧
      (repository.TransferMoney db t s).committed = s ∧
      (service.TransferMoney (repository.PGRepository db) t s).2 = s := by
  cases hres : (repository.TransferMoney db t s).result.2 with
  | none =>
    exfalso
    obtain ⟨_, ⟨h1, h2, h3, h4⟩, _⟩ := TransferMoney_succeeded hres
    rcases hop with rfl | rfl | rfl | rfl
    · rw [h1] at hf; cases hf
    · rw [h2] at hf; cases hf
    · rw [h3] at hf; cases hf
    · rw [h4] at hf; cases hf
  | some e =>
    obtain ⟨hnone, hsame⟩ := TransferMoney_failed hres
    refine ⟨hnone, ⟨e, rfl⟩, hsame, ?_⟩
    rcases service_state db t s with ⟨_, h⟩ | ⟨_, h⟩
    · exact h
    · rw [h, hsame]

/-- Witness for C8: the credit UPDATE fails after the debit UPDATE went
through; the ledger is as before. -/
theorem TransferMoney_atomic_under_failure_witness :
    (repository.TransferMoney (Store.failingAt .credit "connection reset" 1) ⟨0, 1, 2, 10⟩
        ⟨[⟨1, 100⟩, ⟨2, 0⟩], []⟩).result.1 = none ∧
      (∃ e, (repository.TransferMoney (Store.failingAt .credit "connection reset" 1)
        ⟨0, 1, 2, 10⟩ ⟨[⟨1, 100⟩, ⟨2, 0⟩], []⟩).result.2 = some e) ∧
      (repository.TransferMoney (Store.failingAt .credit "connection reset" 1) ⟨0, 1, 2, 10⟩
        ⟨[⟨1, 100⟩, ⟨2, 0⟩], []⟩).committed = ⟨[⟨1, 100⟩, ⟨2, 0⟩], []⟩ ∧
      (service.TransferMoney
        (repository.PGRepository (Store.failingAt .credit "connection reset" 1))
        ⟨0, 1, 2, 10⟩ ⟨[⟨1, 100⟩, ⟨2, 0⟩], []⟩).2 = ⟨[⟨1, 100⟩, ⟨2, 0⟩], []⟩ :=
  TransferMoney_atomic_under_failure (Store.failingAt .credit "connection reset" 1)
    ⟨0, 1, 2, 10⟩ ⟨[⟨1, 100⟩, ⟨2, 0⟩], []⟩ .credit "connection reset"
    (Or.inr (Or.inl rfl)) rfl

/-- What `Handler.CreateAccount` leaves of the ledger, through
`DefaultService.CreateAccount` and `PGRepository.CreateAccount`: the requested
row appended when the INSERT goes through, the ledger as it was otherwise. -/
theorem CreateAccount_ledger (db : Store) (c : api.Context) (request : api.CreateAccountRequest)
    (s : Ledger) :
    (api.CreateAccount (service.NewService (repository.PGRepository db)) c (.ok request) s).2 =
      if db.fault .insertAccount = none ∧
          repository.primaryKeyTaken s.accounts request.AccountID = false then
        { s with accounts :=
            s.accounts ++ [{ ID := request.AccountID, Balance := request.InitialBalance }] }
      else s := by
  simp only [api.CreateAccount, service.NewService, service.CreateAccount,
    repository.PGRepository, repository.CreateAccount]
  cases hf : db.fault .insertAccount with
  | some msg => simp
  | none =>
    cases hk : repository.primaryKeyTaken s.accounts request.AccountID with
    | true => simp
    | false => simp

/-- C6, counterexample: the request `{"account_id": 1, "initial_balance": "-5"}`
on an empty ledger, on a store that does not refuse the INSERT, is answered 201
and commits account 1 with balance -5. -/
theorem CreateAccount_commits_negative_balance :
    api.CreateAccount (service.NewService (repository.PGRepository (Store.healthy 0)))
        ⟨"", ""⟩ (.ok ⟨1, -5⟩) ⟨[], []⟩ =
      (⟨201, none⟩, ⟨[⟨1, -5⟩], []⟩) ∧
    ¬ (api.CreateAccount (service.NewService (repository.PGRepository (Store.healthy 0)))
        ⟨"", ""⟩ (.ok ⟨1, -5⟩) ⟨[], []⟩).2.NonNeg := by
  have h : api.CreateAccount (service.NewService (repository.PGRepository (Store.healthy 0)))
      ⟨"", ""⟩ (.ok ⟨1, -5⟩) ⟨[], []⟩ = (⟨201, none⟩, ⟨[⟨1, -5⟩], []⟩) := rfl
  refine ⟨h, ?_⟩
  rw [h]
  intro hnn
  have := hnn ⟨1, -5⟩ (List.mem_singleton.mpr rfl)
  norm_num at this

/-- C6, amended: `Handler.CreateAccount`, through `DefaultService.CreateAccount`
and `PGRepository.CreateAccount`, commits the account with exactly the
requested initial balance whenever the store accepts the INSERT (no store
failure, id not taken) and commits nothing otherwise; no layer looks at the
sign of the balance, so from a ledger with all balances >= 0 the committed
ledger has all balances >= 0 exactly when the INSERT was refused or the
requested balance is >= 0. -/
theorem CreateAccount_commits_requested_balance (db : Store) (c : api.Context)
    (request : api.CreateAccountRequest) (s : Ledger) :
    ((api.CreateAccount (service.NewService (repository.PGRepository db)) c
          (.ok request) s).2 =
        if db.fault .insertAccount = none ∧
            repository.primaryKeyTaken s.accounts request.AccountID = false then
          { s with accounts :=
              s.accounts ++ [{ ID := request.AccountID, Balance := request.InitialBalance }] }
        else s) ∧
      (s.NonNeg →
        ((api.CreateAccount (service.NewService (repository.PGRepository db)) c
            (.ok request) s).2.NonNeg ↔
          (¬ (db.fault .insertAccount = none ∧
              repository.primaryKeyTaken s.accounts request.AccountID = false) ∨
            0 ≤ request.InitialBalance))) := by
  refine ⟨CreateAccount_ledger db c request s, ?_⟩
  intro hnn
  rw [CreateAccount_ledger db c request s]
  by_cases hacc : db.fault .insertAccount = none ∧
      repository.primaryKeyTaken s.accounts request.AccountID = false
  · rw [if_pos hacc]
    constructor
    · intro h
      right
      exact h ⟨request.AccountID, request.InitialBalance⟩ (by simp)
    · rintro (h | h)
      · exact absurd hacc h
      · intro x hx
        simp only [List.mem_append, List.mem_singleton] at hx
        rcases hx with hx | rfl
        · exact hnn x hx
        · exact h
  · rw [if_neg hacc]
    exact ⟨fun _ => Or.inl hacc, fun _ => hnn⟩

/-- Witness for C6 amended: account 2 with initial balance 0 next to account 1. -/
theorem CreateAccount_commits_requested_balance_witness :
    (api.CreateAccount (service.NewService (repository.PGRepository (Store.healthy 0)))
        ⟨"", ""⟩ (.ok ⟨2, 0⟩) ⟨[⟨1, 100⟩], []⟩).2.NonNeg ↔
      (¬ ((Store.healthy 0).fault .insertAccount = none ∧
          repository.primaryKeyTaken [⟨1, 100⟩] 2 = false) ∨ (0 : Decimal) ≤ 0) :=
  (CreateAccount_commits_requested_balance (Store.healthy 0) ⟨"", ""⟩ ⟨2, 0⟩
    ⟨[⟨1, 100⟩], []⟩).2 (by simp [Ledger.NonNeg])

/-- C9, the code at the failing input: 10 from the existing account 1 to the
missing account 2.  The repository returns the ad-hoc error
`errors.New("destination account not found")` and commits nothing; the
service hands it on; the handler answers it with `Internal`: status 500, code
`internal_error`, the very response it gives when the store cannot even open
the unit of work, and not the 404 of `NotFound`. -/
theorem TransferMoney_account_not_found_is_internal_error :
    (repository.TransferMoney (Store.healthy 1) ⟨0, 1, 2, 10⟩ ⟨[⟨1, 100⟩], []⟩).result =
        (none, some (.new "destination account not found")) ∧
      (repository.TransferMoney (Store.healthy 1) ⟨0, 1, 2, 10⟩ ⟨[⟨1, 100⟩], []⟩).committed =
        ⟨[⟨1, 100⟩], []⟩ ∧
      service.TransferMoney (repository.PGRepository (Store.healthy 1)) ⟨0, 1, 2, 10⟩
          ⟨[⟨1, 100⟩], []⟩ =
        (some (.new "destination account not found"), ⟨[⟨1, 100⟩], []⟩) ∧
      api.TransferMoney (service.NewService (repository.PGRepository (Store.healthy 1)))
          ⟨"rid-1", "rid-1"⟩ (.ok ⟨1, 2, 10⟩) ⟨[⟨1, 100⟩], []⟩ =
        (⟨500, some ⟨"rid-1", ⟨"internal_error", "Internal Server Error"⟩⟩⟩,
          ⟨[⟨1, 100⟩], []⟩) ∧
      api.TransferMoney (service.NewService (repository.PGRepository (Store.healthy 1)))
          ⟨"rid-1", "rid-1"⟩ (.ok ⟨1, 2, 10⟩) ⟨[⟨1, 100⟩], []⟩ =
        api.TransferMoney
          (service.NewService
            (repository.PGRepository (Store.failingAt .begin "connection refused" 1)))
          ⟨"rid-1", "rid-1"⟩ (.ok ⟨1, 2, 10⟩) ⟨[⟨1, 100⟩], []⟩ := by
  refine ⟨?_, ?_, ?_, ?_, ?_⟩ <;> decide

/-! ### Row locks -/

theorem rowLocks_append (xs ys : List Stmt) :
    locking.rowLocks (xs ++ ys) = locking.rowLocks xs ++ locking.rowLocks ys := by
  induction xs with
  | nil => rfl
  | cons x xs ih =>
    cases x <;> simp [locking.rowLocks, ih]

/-- The rows the two SELECT ... FOR UPDATE ask for: a prefix of the smaller id,
then the larger id. -/
theorem rowLocks_lockRows (db : Store) (t : Transaction) (rows : List Account) :
    locking.rowLocks (repository.lockRows db t rows).2 =
        [min t.SourceAccountID t.DestinationAccountID] ∨
      locking.rowLocks (repository.lockRows db t rows).2 =
        [min t.SourceAccountID t.DestinationAccountID,
          max t.SourceAccountID t.DestinationAccountID] := by
  unfold repository.lockRows
  split
  · rename_i hle
    rw [min_eq_left hle, max_eq_right hle]
    split
    · left; rfl
    · split
      · right; rfl
      · right; rfl
  · rename_i hle
    have hle' : t.DestinationAccountID ≤ t.SourceAccountID := le_of_lt (not_le.mp hle)
    rw [min_eq_right hle', max_eq_left hle']
    split
    · left; rfl
    · split
      · right; rfl
      · right; rfl

theorem rowLocks_transferTx (db : Store) (t : Transaction) (s : Ledger) :
    locking.rowLocks (repository.transferTx db t s).2 =
      locking.rowLocks (repository.lockRows db t s.accounts).2 := by
  unfold repository.transferTx
  split
  · rename_i err tr hlock
    rw [hlock]
  · rename_i bal tr hlock
    rw [hlock]
    split
    · rfl
    · simp only
      split
      · simp [rowLocks_append, locking.rowLocks]
      · split
        · simp [rowLocks_append, locking.rowLocks]
        · split
          · simp [rowLocks_append, locking.rowLocks]
          · split
            · simp [rowLocks_append, locking.rowLocks]
            · simp [rowLocks_append, locking.rowLocks]

/-- A unit of work of `repository.TransferMoney` starts in one of the phases
of its smaller and larger account id. -/
theorem start_mem_phases (db : Store) (t : Transaction) (s : Ledger) :
    locking.Worker.start (repository.TransferMoney db t s).trace ∈
      locking.phases (min t.SourceAccountID t.DestinationAccountID)
        (max t.SourceAccountID t.DestinationAccountID) := by
  have htrace : locking.rowLocks (repository.TransferMoney db t s).trace = [] ∨
      locking.rowLocks (repository.TransferMoney db t s).trace =
        locking.rowLocks (repository.lockRows db t s.accounts).2 := by
    unfold repository.TransferMoney
    split
    · left; rfl
    · right
      rw [← rowLocks_transferTx]
      split
      · rename_i err tr htx
        rw [htx]
        split_ifs <;> simp [locking.rowLocks, rowLocks_append]
      · rename_i record s' tr htx
        rw [htx]
        simp [locking.rowLocks]
  unfold locking.Worker.start locking.phases
  rcases htrace with h | h
  · rw [h]; simp
  · rw [h]
    rcases rowLocks_lockRows db t s.accounts with h' | h'
    · rw [h']; simp
    · rw [h']; simp

/-- A move leads from a phase to a phase and uses up one of the remaining moves. -/
theorem move_phase {lo hi : Int} {w w' : locking.Worker} {othersHeld : List Int}
    (hw : w ∈ locking.phases lo hi) (hmove : w.move othersHeld = some w') :
    w' ∈ locking.phases lo hi ∧ w'.remaining + 1 = w.remaining := by
  simp only [locking.phases, List.mem_cons, List.mem_singleton, List.not_mem_nil,
    or_false] at hw
  rcases hw with rfl | rfl | rfl | rfl | rfl | rfl | rfl <;>
    simp only [locking.Worker.move, Bool.false_eq_true, if_false, if_true] at hmove <;>
    first
    | (cases hmove; done)
    | (cases hmove; simp [locking.phases, locking.Worker.remaining])
    | (split at hmove
       · cases hmove
       · cases hmove; simp [locking.phases, locking.Worker.remaining])

/-- Two units of work in phases of the same two distinct rows are never both
waiting: unless both have ended, one of them can move. -/
theorem phases_not_stuck {lo hi : Int} (hne : lo ≠ hi) {p : locking.Worker × locking.Worker}
    (h1 : p.1 ∈ locking.phases lo hi) (h2 : p.2 ∈ locking.phases lo hi) :
    locking.moves p = [] ↔ (p.1.done = true ∧ p.2.done = true) := by
  obtain ⟨w1, w2⟩ := p
  have hne' : hi ≠ lo := Ne.symm hne
  simp only [locking.phases, List.mem_cons, List.mem_singleton, List.not_mem_nil,
    or_false] at h1 h2
  rcases h1 with rfl | rfl | rfl | rfl | rfl | rfl | rfl <;>
    rcases h2 with rfl | rfl | rfl | rfl | rfl | rfl | rfl <;>
    simp [locking.moves, locking.Worker.move, hne, hne']

/-- Every state reached from two units of work in phases of the same two
rows is again made of such phases, and the moves made plus the moves
remaining are the moves that remained at the start. -/
theorem reach_phases {lo hi : Int} {init p : locking.Worker × locking.Worker} {n : Nat}
    (h1 : init.1 ∈ locking.phases lo hi) (h2 : init.2 ∈ locking.phases lo hi)
    (hreach : locking.Reach init n p) :
    p.1 ∈ locking.phases lo hi ∧ p.2 ∈ locking.phases lo hi ∧
      n + (p.1.remaining + p.2.remaining) = init.1.remaining + init.2.remaining := by
  induction hreach with
  | start => exact ⟨h1, h2, by simp⟩
  | @move m p' q _ hq ih =>
    obtain ⟨hp1, hp2, hcount⟩ := ih
    simp only [locking.moves, List.mem_append] at hq
    rcases hq with hq | hq
    · cases hm : p'.1.move p'.2.held with
      | none => rw [hm] at hq; simp at hq
      | some w =>
        rw [hm] at hq
        simp only [List.mem_singleton] at hq
        subst hq
        obtain ⟨hw, hrem⟩ := move_phase hp1 hm
        exact ⟨hw, hp2, by simp only; omega⟩
    · cases hm : p'.2.move p'.1.held with
      | none => rw [hm] at hq; simp at hq
      | some w =>
        rw [hm] at hq
        simp only [List.mem_singleton] at hq
        subst hq
        obtain ⟨hw, hrem⟩ := move_phase hp2 hm
        exact ⟨hp1, hw, by simp only; omega⟩

theorem remaining_le_three {lo hi : Int} {w : locking.Worker}
    (hw : w ∈ locking.phases lo hi) : w.remaining ≤ 3 := by
  simp only [locking.phases, List.mem_cons, List.mem_singleton, List.not_mem_nil,
    or_false] at hw
  rcases hw with rfl | rfl | rfl | rfl | rfl | rfl | rfl <;>
    simp [locking.Worker.remaining]

/-- C10: take the units of work of two calls of `repository.TransferMoney`,
one from `a` to `b` and one from `b` to `a` (`a ≠ b`), on any ledgers and
stores, each asking for its row locks in the order of its `SELECT ... FOR
UPDATE` statements.  In every state reached by any interleaving of their
moves, the only way for no move to be possible is that both have ended: the
two are never left waiting for each other.  And no interleaving has more than
six moves, so both end. -/
theorem opposite_transfers_never_deadlock (db1 db2 : Store) (s1 s2 : Ledger) (a b : Int)
    (x y : Decimal) (n : Nat) (p : locking.Worker × locking.Worker) (hab : a ≠ b)
    (hreach : locking.Reach
      (locking.Worker.start (repository.TransferMoney db1 ⟨0, a, b, x⟩ s1).trace,
        locking.Worker.start (repository.TransferMoney db2 ⟨0, b, a, y⟩ s2).trace) n p) :
    n ≤ 6 ∧ (locking.moves p = [] ↔ (p.1.done = true ∧ p.2.done = true)) := by
  have h1 := start_mem_phases db1 ⟨0, a, b, x⟩ s1
  have h2 := start_mem_phases db2 ⟨0, b, a, y⟩ s2
  simp only at h1 h2
  rw [min_comm b a, max_comm b a] at h2
  have hne : min a b ≠ max a b := by
    intro h
    apply hab
    exact le_antisymm (le_trans (le_max_left a b) (h ▸ min_le_right a b))
      (le_trans (le_max_right a b) (h ▸ min_le_left a b))
  obtain ⟨hp1, hp2, hcount⟩ := reach_phases h1 h2 hreach
  refine ⟨?_, phases_not_stuck hne hp1 hp2⟩
  have r1 := remaining_le_three h1
  have r2 := remaining_le_three h2
  simp only at hcount
  omega

/-- Witness for C10: 10 from 1 to 2 against 5 from 2 to 1; after the first
has locked row 1 the second waits for row 1, and the first can go on. -/
theorem opposite_transfers_never_deadlock_witness :
    1 ≤ 6 ∧ (locking.moves (⟨[2], [1], false⟩, ⟨[1, 2], [], false⟩) = [] ↔
      ((⟨[2], [1], false⟩ : locking.Worker).done = true ∧
        (⟨[1, 2], [], false⟩ : locking.Worker).done = true)) :=
  opposite_transfers_never_deadlock (Store.healthy 1) (Store.healthy 2)
    ⟨[⟨1, 100⟩, ⟨2, 50⟩], []⟩ ⟨[⟨1, 100⟩, ⟨2, 50⟩], []⟩ 1 2 10 5 1
    (⟨[2], [1], false⟩, ⟨[1, 2], [], false⟩) (by decide)
    (locking.Reach.move locking.Reach.start (by decide))

/-! ### Error values and their classification -/

/-- C11: on a request that passes validation, over any repository,
`service.TransferMoney` returns nil when the repository returns nil, returns
`service.ErrInsufficientBalance` when the repository error is (`errors.Is`)
`repository.ErrInsufficientBalance`, and returns the repository error
unchanged otherwise.  On the `PGRepository` it therefore returns
`service.ErrInsufficientBalance` exactly when the repository returned its
insufficient-balance error, and hands every driver error on as that driver
error. -/
theorem service_TransferMoney_error_classification {σ : Type} (repo : Repository σ)
    (t : Transaction) (st : σ) (hv : Valid t) :
    ((repo.TransferMoney t st).1.2 = none → (service.TransferMoney repo t st).1 = none) ∧
      (∀ err, (repo.TransferMoney t st).1.2 = some err →
        errorsIs err .repositoryErrInsufficientBalance = true →
        (service.TransferMoney repo t st).1 = some .ErrInsufficientBalance) ∧
      (∀ err, (repo.TransferMoney t st).1.2 = some err →
        errorsIs err .repositoryErrInsufficientBalance = false →
        (service.TransferMoney repo t st).1 = some err) ∧
      (∀ (db : Store) (s : Ledger),
        ((service.TransferMoney (repository.PGRepository db) t s).1 =
            some .ErrInsufficientBalance ↔
          (repository.TransferMoney db t s).result.2 =
            some .repositoryErrInsufficientBalance) ∧
        (∀ msg, (repository.TransferMoney db t s).result.2 = some (.driver msg) →
          (service.TransferMoney (repository.PGRepository db) t s).1 =
            some (.driver msg))) := by
  obtain ⟨h1, h2, h3, h4⟩ := hv
  have hid : ¬ (t.SourceAccountID ≤ 0 ∨ t.DestinationAccountID ≤ 0) := by
    push_neg; exact ⟨h3, h4⟩
  have hgen : ∀ {τ : Type} (r : Repository τ) (x : τ),
      (service.TransferMoney r t x).1 =
        match (r.TransferMoney t x).1.2 with
        | some err =>
          if errorsIs err .repositoryErrInsufficientBalance then
            some .ErrInsufficientBalance
          else some err
        | none => none := by
    intro τ r x
    simp only [service.TransferMoney, h1, not_le.mpr h2, hid, if_false]
    rcases hres : r.TransferMoney t x with ⟨⟨record, err⟩, x'⟩
    cases err with
    | none => rfl
    | some err =>
      by_cases hi : errorsIs err .repositoryErrInsufficientBalance = true
      · simp [hi]
      · simp [hi]
  refine ⟨?_, ?_, ?_, ?_⟩
  · intro h
    rw [hgen repo st, h]
  · intro err h hi
    rw [hgen repo st, h]
    simp [hi]
  · intro err h hi
    rw [hgen repo st, h]
    simp [hi]
  · intro db s
    have hpg := service_result_of_valid db s (t := t) ⟨h1, h2, h3, h4⟩
    refine ⟨⟨?_, ?_⟩, ?_⟩
    · intro h
      rw [hpg] at h
      cases herr : (repository.TransferMoney db t s).result.2 with
      | none => rw [herr] at h; cases h
      | some err =>
        rw [herr] at h
        rcases TransferMoney_error herr with ⟨he, _⟩ | ⟨he, _⟩ | ⟨he, _⟩ | ⟨msg, op, he, _⟩
        · subst he; simp [errorsIs] at h
        · subst he; simp [errorsIs] at h
        · subst he; rfl
        · subst he; simp [errorsIs] at h
    · intro h
      rw [hpg, h]
      simp [errorsIs]
    · intro msg h
      rw [hpg, h]
      simp [errorsIs]

/-- Witness for C11: the request of `TestDefaultService_TransferMoney_RepositoryError`
(1 to 2, amount 10) on a store whose `Begin` fails: the driver error comes back
as it is. -/
theorem service_TransferMoney_error_classification_witness :
    (service.TransferMoney
        (repository.PGRepository (Store.failingAt .begin "db failure" 1))
        ⟨0, 1, 2, 10⟩ ⟨[⟨1, 100⟩, ⟨2, 0⟩], []⟩).1 = some (.driver "db failure") :=
  ((service_TransferMoney_error_classification
    (repository.PGRepository (Store.healthy 1)) ⟨0, 1, 2, 10⟩ ⟨[⟨1, 100⟩, ⟨2, 0⟩], []⟩
    ⟨by decide, by norm_num, by decide, by decide⟩).2.2.2
    (Store.failingAt .begin "db failure" 1) ⟨[⟨1, 100⟩, ⟨2, 0⟩], []⟩).2 "db failure" rfl

/-- C12: whenever `repository.TransferMoney` returns no error, it returns a
record whose `ID` is the id the store assigned to the inserted row and whose
source, destination and amount are those of the request, and this record is
the one row appended to the transfer log. -/
theorem repository_TransferMoney_returns_persisted_record (db : Store) (t : Transaction)
    (s : Ledger) (h : (repository.TransferMoney db t s).result.2 = none) :
    ∃ record, (repository.TransferMoney db t s).result.1 = some record ∧
      record.ID = db.newID ∧
      record.SourceAccountID = t.SourceAccountID ∧
      record.DestinationAccountID = t.DestinationAccountID ∧
      record.Amount = t.Amount ∧
      (repository.TransferMoney db t s).committed.transactions =
        s.transactions ++ [record] := by
  obtain ⟨_, _, hrec, hcommitted⟩ := TransferMoney_succeeded h
  refine ⟨_, hrec, rfl, rfl, rfl, rfl, ?_⟩
  rw [hcommitted]

/-- Witness for C12: 10 from 1 to 2 with store-assigned id 7. -/
theorem repository_TransferMoney_returns_persisted_record_witness :
    ∃ record, (repository.TransferMoney (Store.healthy 7) ⟨0, 1, 2, 10⟩
          ⟨[⟨1, 100⟩, ⟨2, 0⟩], []⟩).result.1 = some record ∧
      record.ID = 7 ∧ record.SourceAccountID = 1 ∧ record.DestinationAccountID = 2 ∧
      record.Amount = 10 ∧
      (repository.TransferMoney (Store.healthy 7) ⟨0, 1, 2, 10⟩
          ⟨[⟨1, 100⟩, ⟨2, 0⟩], []⟩).committed.transactions = [] ++ [record] :=
  repository_TransferMoney_returns_persisted_record (Store.healthy 7) ⟨0, 1, 2, 10⟩
    ⟨[⟨1, 100⟩, ⟨2, 0⟩], []⟩ (by decide)

/-! ### The HTTP handler -/

/-- The response of `Handler.TransferMoney` to a decoded request, from what the
service returned. -/
theorem Handler_TransferMoney_response {σ : Type} (svc : service.Service σ) (c : api.Context)
    (request : api.TransferMoneyRequest) (st : σ) :
    (api.TransferMoney svc c (.ok request) st).1 =
      match (svc.TransferMoney
          ⟨0, request.SourceAccountID, request.DestinationAccountID, request.Amount⟩ st).1 with
      | some err =>
        if errorsIs err .ErrSameSourceAndDestination then
          api.BadRequest c "same_account" err.text
        else if errorsIs err .ErrNonPositiveAmount then
          api.BadRequest c "invalid_amount" err.text
        else if errorsIs err .ErrInvalidAccountIDs then
          api.BadRequest c "invalid_account_ids" err.text
        else if errorsIs err .ErrInsufficientBalance then
          api.Conflict c "insufficient_balance" err.text
        else api.Internal c "Internal Server Error"
      | none => ⟨200, none⟩ := by
  simp only [api.TransferMoney]
  rcases hres : svc.TransferMoney
      ⟨0, request.SourceAccountID, request.DestinationAccountID, request.Amount⟩ st with
    ⟨err, st'⟩
  cases err with
  | none => rfl
  | some err =>
    simp only
    split_ifs <;> rfl

/-- C13: for a decoded request body and whatever `Service.TransferMoney`
returns, `Handler.TransferMoney` answers: status 200 without a body on nil;
status 400 with code `same_account` on `ErrSameSourceAndDestination`, status
400 with code `invalid_amount` on `ErrNonPositiveAmount`, status 400 with code
`invalid_account_ids` on `ErrInvalidAccountIDs`, status 409 with code
`insufficient_balance` on `ErrInsufficientBalance`, each with the text of the
error as message; and status 500 with code `internal_error` and message
"Internal Server Error" on every error that is none of the four.  An error
other than the sentinel itself is taken for the first of the four, in the
order of the switch, that `errors.Is` finds in it. -/
theorem Handler_TransferMoney_status_mapping {σ : Type} (svc : service.Service σ)
    (c : api.Context) (request : api.TransferMoneyRequest) (st : σ) :
    ((svc.TransferMoney
          ⟨0, request.SourceAccountID, request.DestinationAccountID, request.Amount⟩ st).1 =
        none →
      (api.TransferMoney svc c (.ok request) st).1 = ⟨200, none⟩) ∧
    (∀ err,
      (svc.TransferMoney
          ⟨0, request.SourceAccountID, request.DestinationAccountID, request.Amount⟩ st).1 =
        some err →
      (err = .ErrSameSourceAndDestination →
        (api.TransferMoney svc c (.ok request) st).1 =
          ⟨400, some ⟨if c.requestID = "" then c.headerRequestID else c.requestID,
            ⟨"same_account", "source and destination account IDs cannot be the same"⟩⟩⟩) ∧
      (err = .ErrNonPositiveAmount →
        (api.TransferMoney svc c (.ok request) st).1 =
          ⟨400, some ⟨if c.requestID = "" then c.headerRequestID else c.requestID,
            ⟨"invalid_amount", "amount should be greater than zero"⟩⟩⟩) ∧
      (err = .ErrInvalidAccountIDs →
        (api.TransferMoney svc c (.ok request) st).1 =
          ⟨400, some ⟨if c.requestID = "" then c.headerRequestID else c.requestID,
            ⟨"invalid_account_ids", "invalid account IDs"⟩⟩⟩) ∧
      (err = .ErrInsufficientBalance →
        (api.TransferMoney svc c (.ok request) st).1 =
          ⟨409, some ⟨if c.requestID = "" then c.headerRequestID else c.requestID,
            ⟨"insufficient_balance", "insufficient balance"⟩⟩⟩) ∧
      (errorsIs err .ErrSameSourceAndDestination = true →
        (api.TransferMoney svc c (.ok request) st).1 =
          ⟨400, some ⟨if c.requestID = "" then c.headerRequestID else c.requestID,
            ⟨"same_account", err.text⟩⟩⟩) ∧
      (errorsIs err .ErrSameSourceAndDestination = false →
        errorsIs err .ErrNonPositiveAmount = true →
        (api.TransferMoney svc c (.ok request) st).1 =
          ⟨400, some ⟨if c.requestID = "" then c.headerRequestID else c.requestID,
            ⟨"invalid_amount", err.text⟩⟩⟩) ∧
      (errorsIs err .ErrSameSourceAndDestination = false →
        errorsIs err .ErrNonPositiveAmount = false →
        errorsIs err .ErrInvalidAccountIDs = true →
        (api.TransferMoney svc c (.ok request) st).1 =
          ⟨400, some ⟨if c.requestID = "" then c.headerRequestID else c.requestID,
            ⟨"invalid_account_ids", err.text⟩⟩⟩) ∧
      (errorsIs err .ErrSameSourceAndDestination = false →
        errorsIs err .ErrNonPositiveAmount = false →
        errorsIs err .ErrInvalidAccountIDs = false →
        errorsIs err .ErrInsufficientBalance = true →
        (api.TransferMoney svc c (.ok request) st).1 =
          ⟨409, some ⟨if c.requestID = "" then c.headerRequestID else c.requestID,
            ⟨"insufficient_balance", err.text⟩⟩⟩) ∧
      (errorsIs err .ErrSameSourceAndDestination = false →
        errorsIs err .ErrNonPositiveAmount = false →
        errorsIs err .ErrInvalidAccountIDs = false →
        errorsIs err .ErrInsufficientBalance = false →
        (api.TransferMoney svc c (.ok request) st).1 =
          ⟨500, some ⟨if c.requestID = "" then c.headerRequestID else c.requestID,
            ⟨"internal_error", "Internal Server Error"⟩⟩⟩)) := by
  have hresp := Handler_TransferMoney_response svc c request st
  refine ⟨?_, ?_⟩
  · intro h
    rw [hresp, h]
  · intro err h
    rw [h] at hresp
    simp only at hresp
    refine ⟨?_, ?_, ?_, ?_, ?_, ?_, ?_, ?_, ?_⟩
    · intro e
      subst e
      rw [hresp]
      rfl
    · intro e
      subst e
      rw [hresp]
      rfl
    · intro e
      subst e
      rw [hresp]
      rfl
    · intro e
      subst e
      rw [hresp]
      rfl
    · intro e
      rw [hresp, if_pos e]
      rfl
    · intro n1 e
      rw [hresp, n1, if_pos e]
      rfl
    · intro n1 n2 e
      rw [hresp, n1, n2, if_pos e]
      rfl
    · intro n1 n2 n3 e
      rw [hresp, n1, n2, n3, if_pos e]
      rfl
    · intro n1 n2 n3 n4
      rw [hresp, n1, n2, n3, n4]
      rfl

/-- Witness for C13: a transfer of 1000 from 1 to 2 out of a balance of 100, as
in `TestTransferMoney_InsufficientBalance`: 409 `insufficient_balance`. -/
theorem Handler_TransferMoney_status_mapping_witness :
    (api.TransferMoney (service.NewService (repository.PGRepository (Store.healthy 1)))
        ⟨"rid-123", "rid-123"⟩ (.ok ⟨1, 2, 1000⟩) ⟨[⟨1, 100⟩, ⟨2, 0⟩], []⟩).1 =
      ⟨409, some ⟨if ("rid-123" : String) = "" then "rid-123" else "rid-123",
        ⟨"insufficient_balance", "insufficient balance"⟩⟩⟩ :=
  ((Handler_TransferMoney_status_mapping
    (service.NewService (repository.PGRepository (Store.healthy 1)))
    ⟨"rid-123", "rid-123"⟩ ⟨1, 2, 1000⟩ ⟨[⟨1, 100⟩, ⟨2, 0⟩], []⟩).2
    .ErrInsufficientBalance (by decide)).2.2.2.1 rfl

/-- C14: for any two services that answer the same decoded request with errors
`e1` and `e2` that are none of the four service sentinels, the responses of
`Handler.TransferMoney` are the same response: status 500, code
`internal_error`, message "Internal Server Error", the request id; nothing of
it depends on `e1` or `e2`. -/
theorem Handler_TransferMoney_internal_error_opaque {σ τ : Type} (svc1 : service.Service σ)
    (svc2 : service.Service τ) (c : api.Context) (request : api.TransferMoneyRequest)
    (st1 : σ) (st2 : τ) (e1 e2 : Error)
    (h1 : (svc1.TransferMoney
        ⟨0, request.SourceAccountID, request.DestinationAccountID, request.Amount⟩ st1).1 =
      some e1)
    (h2 : (svc2.TransferMoney
        ⟨0, request.SourceAccountID, request.DestinationAccountID, request.Amount⟩ st2).1 =
      some e2)
    (hn1 : errorsIs e1 .ErrSameSourceAndDestination = false ∧
      errorsIs e1 .ErrNonPositiveAmount = false ∧ errorsIs e1 .ErrInvalidAccountIDs = false ∧
      errorsIs e1 .ErrInsufficientBalance = false)
    (hn2 : errorsIs e2 .ErrSameSourceAndDestination = false ∧
      errorsIs e2 .ErrNonPositiveAmount = false ∧ errorsIs e2 .ErrInvalidAccountIDs = false ∧
      errorsIs e2 .ErrInsufficientBalance = false) :
    (api.TransferMoney svc1 c (.ok request) st1).1 =
        (api.TransferMoney svc2 c (.ok request) st2).1 ∧
      (api.TransferMoney svc1 c (.ok request) st1).1 =
        ⟨500, some ⟨if c.requestID = "" then c.headerRequestID else c.requestID,
          ⟨"internal_error", "Internal Server Error"⟩⟩⟩ := by
  have r1 := Handler_TransferMoney_response svc1 c request st1
  have r2 := Handler_TransferMoney_response svc2 c request st2
  rw [h1] at r1
  rw [h2] at r2
  simp only [hn1.1, hn1.2.1, hn1.2.2.1, hn1.2.2.2, Bool.false_eq_true, if_false] at r1
  simp only [hn2.1, hn2.2.1, hn2.2.2.1, hn2.2.2.2, Bool.false_eq_true, if_false] at r2
  rw [r1, r2]
  exact ⟨rfl, rfl⟩

/-- Witness for C14: a store that cannot open the unit of work against a
transfer to a missing account; the two responses are the same. -/
theorem Handler_TransferMoney_internal_error_opaque_witness :
    (api.TransferMoney
        (service.NewService
          (repository.PGRepository (Store.failingAt .begin "connection refused" 1)))
        ⟨"rid-1", "rid-1"⟩ (.ok ⟨1, 2, 10⟩) ⟨[⟨1, 100⟩], []⟩).1 =
      (api.TransferMoney (service.NewService (repository.PGRepository (Store.healthy 1)))
        ⟨"rid-1", "rid-1"⟩ (.ok ⟨1, 2, 10⟩) ⟨[⟨1, 100⟩], []⟩).1 ∧
    (api.TransferMoney
        (service.NewService
          (repository.PGRepository (Store.failingAt .begin "connection refused" 1)))
        ⟨"rid-1", "rid-1"⟩ (.ok ⟨1, 2, 10⟩) ⟨[⟨1, 100⟩], []⟩).1 =
      ⟨500, some ⟨if ("rid-1" : String) = "" then "rid-1" else "rid-1",
        ⟨"internal_error", "Internal Server Error"⟩⟩⟩ :=
  Handler_TransferMoney_internal_error_opaque
    (service.NewService
      (repository.PGRepository (Store.failingAt .begin "connection refused" 1)))
    (service.NewService (repository.PGRepository (Store.healthy 1)))
    ⟨"rid-1", "rid-1"⟩ ⟨1, 2, 10⟩ ⟨[⟨1, 100⟩], []⟩ ⟨[⟨1, 100⟩], []⟩
    (.driver "connection refused") (.new "destination account not found")
    (by decide) (by decide) (by decide) (by decide)

/-- Every body `Handler.TransferMoney` writes carries the request id of
`WriteError`. -/
theorem Handler_TransferMoney_body_requestID {σ : Type} (svc : service.Service σ)
    (c : api.Context) (bound : Except String api.TransferMoneyRequest) (st : σ)
    (body : api.ErrorResponse)
    (h : (api.TransferMoney svc c bound st).1.body = some body) :
    body.RequestID = if c.requestID = "" then c.headerRequestID else c.requestID := by
  cases bound with
  | error msg =>
    simp only [api.TransferMoney, api.BadRequest, api.WriteError, Option.some.injEq] at h
    rw [← h]
  | ok request =>
    rw [Handler_TransferMoney_response svc c request st] at h
    split at h
    · split_ifs at h <;>
        simp only [api.BadRequest, api.Conflict, api.Internal, api.WriteError,
          Option.some.injEq] at h <;>
        rw [← h]
    · cases h

/-- C15: behind the `RequestID` middleware, a request with a non-empty
`X-Request-ID` header gets that value as response header `X-Request-ID`, as
`request_id` of every body `WriteError` writes, and so of every error body of
`Handler.TransferMoney`; a request without the header gets the generated
identifier (non-empty, as `uuid.NewString()` gives it) in all three places. -/
theorem RequestID_correlates_response {σ : Type} (generated header : String) (st : σ) :
    (header ≠ "" →
      (∀ next : api.Context → σ → api.Response × σ,
        (api.RequestID generated header next st).1.1 = header) ∧
      (∀ (status : Nat) (code message : String),
        (api.RequestID generated header
          (fun c x => (api.WriteError c status code message, x)) st).1.2.body =
          some ⟨header, ⟨code, message⟩⟩) ∧
      (∀ (svc : service.Service σ) (bound : Except String api.TransferMoneyRequest)
          (body : api.ErrorResponse),
        (api.RequestID generated header
          (fun c x => api.TransferMoney svc c bound x) st).1.2.body = some body →
        body.RequestID = header)) ∧
    (header = "" → generated ≠ "" →
      (∀ next : api.Context → σ → api.Response × σ,
        (api.RequestID generated header next st).1.1 = generated) ∧
      (∀ (status : Nat) (code message : String),
        (api.RequestID generated header
          (fun c x => (api.WriteError c status code message, x)) st).1.2.body =
          some ⟨generated, ⟨code, message⟩⟩) ∧
      (∀ (svc : service.Service σ) (bound : Except String api.TransferMoneyRequest)
          (body : api.ErrorResponse),
        (api.RequestID generated header
          (fun c x => api.TransferMoney svc c bound x) st).1.2.body = some body →
        body.RequestID = generated)) := by
  constructor
  · intro hne
    refine ⟨?_, ?_, ?_⟩
    · intro next
      simp [api.RequestID, hne]
    · intro status code message
      simp [api.RequestID, api.WriteError, hne]
    · intro svc bound body h
      simp only [api.RequestID, hne, if_false] at h
      have := Handler_TransferMoney_body_requestID svc _ bound st body h
      simpa [hne] using this
  · intro he hg
    subst he
    refine ⟨?_, ?_, ?_⟩
    · intro next
      simp [api.RequestID]
    · intro status code message
      simp [api.RequestID, api.WriteError, hg]
    · intro svc bound body h
      simp only [api.RequestID, if_true] at h
      have := Handler_TransferMoney_body_requestID svc _ bound st body h
      simpa [hg] using this

/-- Witness for C15: the header `rid-123` of `TestTransferMoney_BadRequests`. -/
theorem RequestID_correlates_response_witness :
    (api.RequestID "generated" "rid-123"
        (fun c x => (api.WriteError c 400 "same_account" "same", x)) ()).1.2.body =
      some ⟨"rid-123", ⟨"same_account", "same"⟩⟩ :=
  ((RequestID_correlates_response "generated" "rid-123" ()).1 (by decide)).2.1
    400 "same_account" "same"

/-! ### Lock order, existence and frame -/

theorem lockRows_trace_of_found {db : Store} {t : Transaction} {rows : List Account}
    {a : Account} (hfirst :
      (t.SourceAccountID ≤ t.DestinationAccountID ∧ db.fault .selectSource = none ∧
        rows.find? (fun a => a.ID == t.SourceAccountID) = some a) ∨
      (¬ t.SourceAccountID ≤ t.DestinationAccountID ∧ db.fault .selectDestination = none ∧
        rows.find? (fun a => a.ID == t.DestinationAccountID) = some a)) :
    locking.rowLocks (repository.lockRows db t rows).2 =
      [min t.SourceAccountID t.DestinationAccountID,
        max t.SourceAccountID t.DestinationAccountID] := by
  unfold repository.lockRows
  rcases hfirst with ⟨hle, hf, hfound⟩ | ⟨hle, hf, hfound⟩
  · rw [if_pos hle, queryRowForUpdate_of_found hf hfound, min_eq_left hle, max_eq_right hle]
    simp only
    split <;> rfl
  · have hle' : t.DestinationAccountID ≤ t.SourceAccountID := le_of_lt (not_le.mp hle)
    rw [if_neg hle, queryRowForUpdate_of_found hf hfound, min_eq_right hle', max_eq_left hle']
    simp only
    split <;> rfl

theorem rowLocks_trace (db : Store) (t : Transaction) (s : Ledger) :
    (db.fault .begin ≠ none ∧ locking.rowLocks (repository.TransferMoney db t s).trace = []) ∨
      (db.fault .begin = none ∧ locking.rowLocks (repository.TransferMoney db t s).trace =
        locking.rowLocks (repository.lockRows db t s.accounts).2) := by
  unfold repository.TransferMoney
  split
  · rename_i msg hbegin
    left
    exact ⟨by rw [hbegin]; simp, rfl⟩
  · rename_i hbegin
    right
    refine ⟨hbegin, ?_⟩
    rw [← rowLocks_transferTx]
    split
    · rename_i err tr htx
      rw [htx]
      split_ifs <;> simp [locking.rowLocks, rowLocks_append]
    · rename_i record s' tr htx
      rw [htx]
      simp [locking.rowLocks]

/-- C16: the `SELECT ... FOR UPDATE` statements one call of
`repository.TransferMoney` issues are, in order, a prefix of: the smaller of
the two account ids, then the larger, whichever of them is the source.  Once
`Begin` is through and the first of the two finds its row, both are issued.
So the requests (a, b, x) and (b, a, y) that get that far ask for their row
locks in the same order. -/
theorem TransferMoney_locks_in_ascending_order (db : Store) (t : Transaction) (s : Ledger) :
    locking.rowLocks (repository.TransferMoney db t s).trace <+:
        [min t.SourceAccountID t.DestinationAccountID,
          max t.SourceAccountID t.DestinationAccountID] ∧
      (db.fault .begin = none → db.fault .selectSource = none →
        db.fault .selectDestination = none →
        (s.find (min t.SourceAccountID t.DestinationAccountID)).isSome = true →
        locking.rowLocks (repository.TransferMoney db t s).trace =
          [min t.SourceAccountID t.DestinationAccountID,
            max t.SourceAccountID t.DestinationAccountID]) ∧
      (∀ (db' : Store) (s' : Ledger) (y : Decimal),
        locking.rowLocks (repository.TransferMoney db t s).trace =
            [min t.SourceAccountID t.DestinationAccountID,
              max t.SourceAccountID t.DestinationAccountID] →
        locking.rowLocks (repository.TransferMoney db'
            ⟨0, t.DestinationAccountID, t.SourceAccountID, y⟩ s').trace =
            [min t.DestinationAccountID t.SourceAccountID,
              max t.DestinationAccountID t.SourceAccountID] →
        locking.rowLocks (repository.TransferMoney db t s).trace =
          locking.rowLocks (repository.TransferMoney db'
            ⟨0, t.DestinationAccountID, t.SourceAccountID, y⟩ s').trace) := by
  refine ⟨?_, ?_, ?_⟩
  · rcases rowLocks_trace db t s with ⟨_, h⟩ | ⟨_, h⟩
    · rw [h]; exact List.nil_prefix
    · rw [h]
      rcases rowLocks_lockRows db t s.accounts with h' | h'
      · rw [h']; exact ⟨[_], rfl⟩
      · rw [h']
  · intro hbegin hfs hfd hfound
    rcases rowLocks_trace db t s with ⟨hb, _⟩ | ⟨_, h⟩
    · exact absurd hbegin hb
    · rw [h]
      obtain ⟨a, ha⟩ := Option.isSome_iff_exists.mp hfound
      simp only [Ledger.find] at ha
      by_cases hle : t.SourceAccountID ≤ t.DestinationAccountID
      · rw [min_eq_left hle] at ha
        exact lockRows_trace_of_found (Or.inl ⟨hle, hfs, ha⟩)
      · have hle' : t.DestinationAccountID ≤ t.SourceAccountID := le_of_lt (not_le.mp hle)
        rw [min_eq_right hle'] at ha
        exact lockRows_trace_of_found (Or.inr ⟨hle, hfd, ha⟩)
  · intro db' s' y h1 h2
    rw [h1, h2, min_comm, max_comm]

/-- Witness for C16: 10 from account 2 to account 1 locks row 1, then row 2. -/
theorem TransferMoney_locks_in_ascending_order_witness :
    locking.rowLocks (repository.TransferMoney (Store.healthy 1) ⟨0, 2, 1, 10⟩
        ⟨[⟨1, 100⟩, ⟨2, 50⟩], []⟩).trace = [min 2 1, max 2 1] :=
  (TransferMoney_locks_in_ascending_order (Store.healthy 1) ⟨0, 2, 1, 10⟩
    ⟨[⟨1, 100⟩, ⟨2, 50⟩], []⟩).2.1 rfl rfl rfl (by decide)

theorem lockRows_error_of_missing (db : Store) {t : Transaction} {rows : List Account}
    (hmiss : rows.find? (fun a => a.ID == t.SourceAccountID) = none ∨
      rows.find? (fun a => a.ID == t.DestinationAccountID) = none) :
    ∃ e, (repository.lockRows db t rows).1 = .error e := by
  cases h : (repository.lockRows db t rows).1 with
  | error e => exact ⟨e, rfl⟩
  | ok bal =>
    exfalso
    obtain ⟨a, b, ha, hb, _⟩ := lockRows_ok h
    rcases hmiss with hm | hm
    · rw [hm] at ha; cases ha
    · rw [hm] at hb; cases hb

theorem TransferMoney_of_lock_error {db : Store} {t : Transaction} {s : Ledger} {e : Error}
    (hbegin : db.fault .begin = none)
    (h : (repository.lockRows db t s.accounts).1 = .error e) :
    (repository.TransferMoney db t s).result = (none, some e) := by
  have htx : (repository.transferTx db t s).1 = .error e := by
    unfold repository.transferTx
    split
    · rename_i err tr hlock
      rw [hlock] at h
      simp only [Except.error.injEq] at h
      rw [h]
    · rename_i bal tr hlock
      rw [hlock] at h
      cases h
  unfold repository.TransferMoney
  rw [hbegin]
  simp only
  split
  · rename_i err tr h'
    rw [h'] at htx
    simp only [Except.error.injEq] at htx
    rw [htx]
  · rename_i record s' tr h'
    rw [h'] at htx
    cases htx

/-- C17: when the source or the destination account does not exist,
`repository.TransferMoney` returns an error that is never
`ErrInsufficientBalance`, whatever the balances and whatever the store does,
and commits nothing; on a store that answers `Begin` and the two
`SELECT ... FOR UPDATE` the error is one of the two not-found errors. -/
theorem TransferMoney_existence_before_funds (db : Store) (t : Transaction) (s : Ledger)
    (hmiss : s.find t.SourceAccountID = none ∨ s.find t.DestinationAccountID = none) :
    (repository.TransferMoney db t s).result.2 ≠
        some .repositoryErrInsufficientBalance ∧
      (∃ e, (repository.TransferMoney db t s).result.2 = some e) ∧
      (repository.TransferMoney db t s).committed = s ∧
      (db.fault .begin = none → db.fault .selectSource = none →
        db.fault .selectDestination = none →
        (repository.TransferMoney db t s).result =
            (none, some (.new "source account not found")) ∨
          (repository.TransferMoney db t s).result =
            (none, some (.new "destination account not found"))) := by
  simp only [Ledger.find] at hmiss
  have hnot : ∀ a b, s.accounts.find? (fun a => a.ID == t.SourceAccountID) = some a →
      s.accounts.find? (fun a => a.ID == t.DestinationAccountID) = some b → False := by
    intro a b ha hb
    rcases hmiss with hm | hm
    · rw [hm] at ha; cases ha
    · rw [hm] at hb; cases hb
  have herr : ∃ e, (repository.TransferMoney db t s).result.2 = some e := by
    cases hres : (repository.TransferMoney db t s).result.2 with
    | some e => exact ⟨e, rfl⟩
    | none =>
      exfalso
      obtain ⟨⟨a, b, ha, hb, _⟩, _⟩ := TransferMoney_succeeded hres
      exact hnot a b ha hb
  obtain ⟨e, he⟩ := herr
  refine ⟨?_, ⟨e, he⟩, (TransferMoney_failed he).2, ?_⟩
  · intro h
    rcases TransferMoney_error h with ⟨h', _⟩ | ⟨h', _⟩ | ⟨_, a, b, ha, hb, _⟩ | ⟨_, _, h', _⟩
    · cases h'
    · cases h'
    · exact hnot a b ha hb
    · cases h'
  · intro hbegin hfs hfd
    obtain ⟨e', he'⟩ := lockRows_error_of_missing db hmiss
    rw [TransferMoney_of_lock_error hbegin he']
    rcases lockRows_error he' with ⟨h', _⟩ | ⟨h', _⟩ | ⟨msg, _, hf | hf⟩
    · left; rw [h']
    · right; rw [h']
    · rw [hfs] at hf; cases hf
    · rw [hfd] at hf; cases hf

/-- Witness for C17: 500 from account 1 (balance 100) to the missing account 2:
not found, not insufficient balance. -/
theorem TransferMoney_existence_before_funds_witness :
    (repository.TransferMoney (Store.healthy 1) ⟨0, 1, 2, 500⟩
          ⟨[⟨1, 100⟩], []⟩).result.2 ≠ some .repositoryErrInsufficientBalance ∧
      (∃ e, (repository.TransferMoney (Store.healthy 1) ⟨0, 1, 2, 500⟩
          ⟨[⟨1, 100⟩], []⟩).result.2 = some e) ∧
      (repository.TransferMoney (Store.healthy 1) ⟨0, 1, 2, 500⟩
          ⟨[⟨1, 100⟩], []⟩).committed = ⟨[⟨1, 100⟩], []⟩ ∧
      ((Store.healthy 1).fault .begin = none → (Store.healthy 1).fault .selectSource = none →
        (Store.healthy 1).fault .selectDestination = none →
        (repository.TransferMoney (Store.healthy 1) ⟨0, 1, 2, 500⟩
            ⟨[⟨1, 100⟩], []⟩).result =
            (none, some (.new "source account not found")) ∨
          (repository.TransferMoney (Store.healthy 1) ⟨0, 1, 2, 500⟩
            ⟨[⟨1, 100⟩], []⟩).result =
            (none, some (.new "destination account not found"))) :=
  TransferMoney_existence_before_funds (Store.healthy 1) ⟨0, 1, 2, 500⟩ ⟨[⟨1, 100⟩], []⟩
    (Or.inr (by decide))

/-- C18: when `repository.TransferMoney` returns no error, every row of
`accounts.accounts` whose id is neither the source nor the destination is in
the committed ledger as it was (so the balance of every other account is
unchanged), the committed ledger has the same account ids in the same order
(none created, none removed), and the committed transfer log is the old log,
unchanged, followed by the one new record. -/
theorem TransferMoney_frame (db : Store) (t : Transaction) (s : Ledger)
    (h : (repository.TransferMoney db t s).result.2 = none) :
    (∀ id, id ≠ t.SourceAccountID → id ≠ t.DestinationAccountID →
      (repository.TransferMoney db t s).committed.find id = s.find id ∧
      (repository.TransferMoney db t s).committed.balance id = s.balance id) ∧
      (repository.TransferMoney db t s).committed.accounts.map (·.ID) =
        s.accounts.map (·.ID) ∧
      (repository.TransferMoney db t s).committed.transactions =
        s.transactions ++
          [⟨db.newID, t.SourceAccountID, t.DestinationAccountID, t.Amount⟩] := by
  obtain ⟨_, _, _, hcommitted⟩ := TransferMoney_succeeded h
  rw [hcommitted]
  refine ⟨?_, ?_, rfl⟩
  · intro id hs hd
    have hfind : (updateBalance (updateBalance s.accounts t.SourceAccountID (-t.Amount))
        t.DestinationAccountID t.Amount).find? (fun a => a.ID == id) =
        s.accounts.find? (fun a => a.ID == id) := by
      rw [find_updateBalance_other _ _ hd, find_updateBalance_other _ _ hs]
    exact ⟨hfind, by simp only [Ledger.balance, Ledger.find, hfind]⟩
  · simp only
    rw [updateBalance_ids, updateBalance_ids]

/-- Witness for C18: 10 from 1 to 2 leaves account 3 with its 7. -/
theorem TransferMoney_frame_witness :
    (∀ id, id ≠ 1 → id ≠ 2 →
      (repository.TransferMoney (Store.healthy 1) ⟨0, 1, 2, 10⟩
          ⟨[⟨1, 100⟩, ⟨2, 0⟩, ⟨3, 7⟩], []⟩).committed.find id =
        (⟨[⟨1, 100⟩, ⟨2, 0⟩, ⟨3, 7⟩], []⟩ : Ledger).find id ∧
      (repository.TransferMoney (Store.healthy 1) ⟨0, 1, 2, 10⟩
          ⟨[⟨1, 100⟩, ⟨2, 0⟩, ⟨3, 7⟩], []⟩).committed.balance id =
        (⟨[⟨1, 100⟩, ⟨2, 0⟩, ⟨3, 7⟩], []⟩ : Ledger).balance id) ∧
      (repository.TransferMoney (Store.healthy 1) ⟨0, 1, 2, 10⟩
          ⟨[⟨1, 100⟩, ⟨2, 0⟩, ⟨3, 7⟩], []⟩).committed.accounts.map (·.ID) =
        [1, 2, 3] ∧
      (repository.TransferMoney (Store.healthy 1) ⟨0, 1, 2, 10⟩
          ⟨[⟨1, 100⟩, ⟨2, 0⟩, ⟨3, 7⟩], []⟩).committed.transactions =
        [] ++ [⟨1, 1, 2, 10⟩] :=
  TransferMoney_frame (Store.healthy 1) ⟨0, 1, 2, 10⟩ ⟨[⟨1, 100⟩, ⟨2, 0⟩, ⟨3, 7⟩], []⟩
    (by decide)

/-! ### A transfer and its reverse -/

theorem updateBalance_cancel (rows : List Account) (id : Int) {d e : Decimal}
    (h : d + e = 0) : updateBalance (updateBalance rows id d) id e = rows := by
  induction rows with
  | nil => rfl
  | cons r rs ih =>
    rw [updateBalance_cons, updateBalance_cons, ih]
    obtain ⟨rid, bal⟩ := r
    by_cases hr : rid = id
    · subst hr
      simp only [if_true, Account.mk.injEq, true_and, List.cons.injEq, and_true]
      rw [add_assoc, h, add_zero]
    · simp [hr]

/-- The four UPDATE statements of a transfer and its reverse leave every row
as it was. -/
theorem updateBalance_reverse (rows : List Account) (a b : Int) (x : Decimal) :
    updateBalance (updateBalance (updateBalance (updateBalance rows a (-x)) b x) b (-x)) a x =
      rows := by
  rw [updateBalance_cancel _ b (add_neg_cancel x), updateBalance_cancel _ a (neg_add_cancel x)]

/-- C19, counterexample: account 1 holds 100 and account 2 holds -5 (a ledger
two `CreateAccount` calls commit).  3 from 1 to 2 succeeds; the reverse, 3 from
2 to 1 right after, fails with `ErrInsufficientBalance`, since account 2 then
holds -2. -/
theorem reverse_transfer_fails_from_negative_destination :
    (repository.CreateAccount (Store.healthy 0) ⟨2, -5⟩
        (repository.CreateAccount (Store.healthy 0) ⟨1, 100⟩ ⟨[], []⟩).2).2 =
      ⟨[⟨1, 100⟩, ⟨2, -5⟩], []⟩ ∧
    Valid ⟨0, 1, 2, 3⟩ ∧
    (repository.TransferMoney (Store.healthy 1) ⟨0, 1, 2, 3⟩
        ⟨[⟨1, 100⟩, ⟨2, -5⟩], []⟩).result.2 = none ∧
    (repository.TransferMoney (Store.healthy 2) ⟨0, 2, 1, 3⟩
        (repository.TransferMoney (Store.healthy 1) ⟨0, 1, 2, 3⟩
          ⟨[⟨1, 100⟩, ⟨2, -5⟩], []⟩).committed).result =
      (none, some .repositoryErrInsufficientBalance) := by
  have h1 := @TransferMoney_of_found (Store.healthy 1) ⟨0, 1, 2, 3⟩
    ⟨[⟨1, 100⟩, ⟨2, -5⟩], []⟩ ⟨1, 100⟩ ⟨2, -5⟩
    rfl rfl rfl rfl rfl rfl rfl rfl rfl (by norm_num)
  refine ⟨by decide, ⟨by decide, by norm_num, by decide, by decide⟩, ?_, ?_⟩
  · rw [h1.1]
  · rw [h1.2]
    exact (@TransferMoney_insufficient (Store.healthy 2) ⟨0, 2, 1, 3⟩ _
      ⟨2, -5 + 3⟩ ⟨1, 100 + -3⟩ rfl rfl rfl
      (by simp [updateBalance]) (by simp [updateBalance]) (by norm_num)).1

/-- C19, amended: let a request that passes validation succeed on a ledger in
which the destination account holds a balance >= 0.  Then the reverse request,
run right after on the committed ledger, never fails with
`ErrInsufficientBalance`, whatever the store does; and on a store on which no
statement fails it succeeds, through the repository and through the service,
every row of `accounts.accounts` is again as it was before the first transfer,
and the transfer log is the old log followed by exactly the two records. -/
theorem reverse_transfer_restores_balances (db1 db2 : Store) (t : Transaction) (s : Ledger)
    (bd : Decimal) (hv : Valid t)
    (h1 : (repository.TransferMoney db1 t s).result.2 = none)
    (hbd : s.balance t.DestinationAccountID = some bd) (hnn : 0 ≤ bd) :
    (repository.TransferMoney db2
          ⟨0, t.DestinationAccountID, t.SourceAccountID, t.Amount⟩
          (repository.TransferMoney db1 t s).committed).result.2 ≠
        some .repositoryErrInsufficientBalance ∧
      ((∀ op, db2.fault op = none) →
        (repository.TransferMoney db2
            ⟨0, t.DestinationAccountID, t.SourceAccountID, t.Amount⟩
            (repository.TransferMoney db1 t s).committed).result.2 = none ∧
        (service.TransferMoney (repository.PGRepository db2)
            ⟨0, t.DestinationAccountID, t.SourceAccountID, t.Amount⟩
            (repository.TransferMoney db1 t s).committed).1 = none ∧
        (repository.TransferMoney db2
            ⟨0, t.DestinationAccountID, t.SourceAccountID, t.Amount⟩
            (repository.TransferMoney db1 t s).committed).committed.accounts = s.accounts ∧
        (repository.TransferMoney db2
            ⟨0, t.DestinationAccountID, t.SourceAccountID, t.Amount⟩
            (repository.TransferMoney db1 t s).committed).committed.transactions =
          s.transactions ++
            [⟨db1.newID, t.SourceAccountID, t.DestinationAccountID, t.Amount⟩,
             ⟨db2.newID, t.DestinationAccountID, t.SourceAccountID, t.Amount⟩]) := by
  obtain ⟨hne, hpos, hsrc, hdst⟩ := hv
  obtain ⟨⟨a, b, ha, hb, _⟩, _, _, hcommitted⟩ := TransferMoney_succeeded h1
  simp only [Ledger.balance, Ledger.find, Option.map_eq_some'] at hbd
  obtain ⟨b', hb', hbal⟩ := hbd
  rw [hb] at hb'
  cases hb'
  rw [hcommitted]
  have hfb : (updateBalance (updateBalance s.accounts t.SourceAccountID (-t.Amount))
      t.DestinationAccountID t.Amount).find? (fun r => r.ID == t.DestinationAccountID) =
      some { b with Balance := b.Balance + t.Amount } := by
    apply find_updateBalance_same
    rw [find_updateBalance_other _ _ (Ne.symm hne), hb]
  have hfa : (updateBalance (updateBalance s.accounts t.SourceAccountID (-t.Amount))
      t.DestinationAccountID t.Amount).find? (fun r => r.ID == t.SourceAccountID) =
      some { a with Balance := a.Balance + -t.Amount } := by
    rw [find_updateBalance_other _ _ hne]
    exact find_updateBalance_same _ _ ha
  have hsuff : ¬ (b.Balance + t.Amount < t.Amount) := by
    rw [hbal]
    exact not_lt.mpr (le_add_of_nonneg_left hnn)
  constructor
  · intro h
    rcases TransferMoney_error h with ⟨h', _⟩ | ⟨h', _⟩ | ⟨_, x, y, hx, _, hless⟩ |
      ⟨_, _, h', _⟩
    · cases h'
    · cases h'
    · simp only at hx hless
      rw [hfb] at hx
      cases hx
      exact hsuff hless
    · cases h'
  · intro hok
    obtain ⟨hres, hcomm2⟩ := @TransferMoney_of_found db2
      ⟨0, t.DestinationAccountID, t.SourceAccountID, t.Amount⟩
      ⟨updateBalance (updateBalance s.accounts t.SourceAccountID (-t.Amount))
          t.DestinationAccountID t.Amount,
        s.transactions ++
          [⟨db1.newID, t.SourceAccountID, t.DestinationAccountID, t.Amount⟩]⟩
      _ _ (hok .begin) (hok .selectSource) (hok .selectDestination) (hok .debit)
      (hok .credit) (hok .insert) (hok .commit) hfb hfa hsuff
    refine ⟨by rw [hres], ?_, ?_, ?_⟩
    · have hv' : Valid ⟨0, t.DestinationAccountID, t.SourceAccountID, t.Amount⟩ :=
        ⟨Ne.symm hne, hpos, hdst, hsrc⟩
      rw [service_result_of_valid db2 _ hv', hres]
    · rw [hcomm2]
      exact updateBalance_reverse s.accounts t.SourceAccountID t.DestinationAccountID t.Amount
    · rw [hcomm2]
      simp

/-- Witness for C19 amended: 10 from 1 to 2 and back, balances 100 and 0. -/
theorem reverse_transfer_restores_balances_witness :
    (repository.TransferMoney (Store.healthy 2) ⟨0, 2, 1, 10⟩
          (repository.TransferMoney (Store.healthy 1) ⟨0, 1, 2, 10⟩
            ⟨[⟨1, 100⟩, ⟨2, 0⟩], []⟩).committed).result.2 = none ∧
      (service.TransferMoney (repository.PGRepository (Store.healthy 2)) ⟨0, 2, 1, 10⟩
          (repository.TransferMoney (Store.healthy 1) ⟨0, 1, 2, 10⟩
            ⟨[⟨1, 100⟩, ⟨2, 0⟩], []⟩).committed).1 = none ∧
      (repository.TransferMoney (Store.healthy 2) ⟨0, 2, 1, 10⟩
          (repository.TransferMoney (Store.healthy 1) ⟨0, 1, 2, 10⟩
            ⟨[⟨1, 100⟩, ⟨2, 0⟩], []⟩).committed).committed.accounts =
        [⟨1, 100⟩, ⟨2, 0⟩] ∧
      (repository.TransferMoney (Store.healthy 2) ⟨0, 2, 1, 10⟩
          (repository.TransferMoney (Store.healthy 1) ⟨0, 1, 2, 10⟩
            ⟨[⟨1, 100⟩, ⟨2, 0⟩], []⟩).committed).committed.transactions =
        [] ++ [⟨1, 1, 2, 10⟩, ⟨2, 2, 1, 10⟩] :=
  (reverse_transfer_restores_balances (Store.healthy 1) (Store.healthy 2) ⟨0, 1, 2, 10⟩
    ⟨[⟨1, 100⟩, ⟨2, 0⟩], []⟩ 0 ⟨by decide, by norm_num, by decide, by decide⟩
    (by decide) (by simp [Ledger.balance, Ledger.find]) (le_refl 0)).2 (fun _ => rfl)

end TransferSystem
